import Mathlib

/-!
Verification of the subject-snapshot scoring pipeline
(`scoring.py`, `feature_engineering.py`, `data_ingestion.py`).

Modelling conventions (shallow embedding):
* pandas numeric cell values are modelled as exact rationals (`ℚ`);
  floating-point rounding is outside the scope of these theorems.
* A column that may be absent from a DataFrame is modelled as an
  `Option` field on the row record: `none` means the column is absent
  (for the whole table), `some v` means it is present with value `v`.
  A present-but-NaN cell that the code immediately zero-fills
  (`fillna(0)`) is identified with the absent/default case, since both
  reduce to the same substituted value before any condition is read.
* String-keyed tables (for the key-normalization functions) are
  modelled as association lists from column name to cell value.
-/

namespace NestDqi

/-! ### Scoring rows (scoring.py)

`ScoreRow` carries the eleven driver columns read by
`compute_clean_patient_flags` (scoring.py lines 13-32) and `compute_dqi`
(lines 60-80).  Each field is `Option ℚ`: `none` models the column being
absent from the frame, in which case the code substitutes a default
(`0` / `0.0`, scoring.py lines 23-32, or `d.get(col, 0)` in lines 69-80). -/

structure ScoreRow where
  n_missing_visits : Option ℚ
  n_missing_pages : Option ℚ
  n_open_queries : Option ℚ
  n_nonconformant_pages : Option ℚ
  n_lab_issues : Option ℚ
  n_uncoded_terms : Option ℚ
  n_open_edrr_issues : Option ℚ
  n_sae_pending_actions : Option ℚ
  pct_crfs_verified : Option ℚ
  pct_crfs_signed : Option ℚ
  pct_crfs_overdue : Option ℚ
  deriving DecidableEq, Repr

/-- Substitution step of `compute_clean_patient_flags` (scoring.py lines
23-34): every absent driver column is created with default `0` (counts)
or `0.0` (CRF percentage columns), and `fillna(0)` zero-fills the rest. -/
def fillDriverDefaults (r : ScoreRow) : ScoreRow where
  n_missing_visits := some (r.n_missing_visits.getD 0)
  n_missing_pages := some (r.n_missing_pages.getD 0)
  n_open_queries := some (r.n_open_queries.getD 0)
  n_nonconformant_pages := some (r.n_nonconformant_pages.getD 0)
  n_lab_issues := some (r.n_lab_issues.getD 0)
  n_uncoded_terms := some (r.n_uncoded_terms.getD 0)
  n_open_edrr_issues := some (r.n_open_edrr_issues.getD 0)
  n_sae_pending_actions := some (r.n_sae_pending_actions.getD 0)
  pct_crfs_verified := some (r.pct_crfs_verified.getD 0)
  pct_crfs_signed := some (r.pct_crfs_signed.getD 0)
  pct_crfs_overdue := some (r.pct_crfs_overdue.getD 0)

/-- Conjunction of the eleven conditions of scoring.py lines 36-48,
evaluated on the defaulted columns exactly as `np.logical_and.reduce`
does: eight `.eq(0)` count conditions, two `.ge(1.0)` percentage
conditions and one `.eq(0)` overdue condition. -/
def cleanConds (r : ScoreRow) : Prop :=
  r.n_missing_visits.getD 0 = 0 ∧
  r.n_missing_pages.getD 0 = 0 ∧
  r.n_open_queries.getD 0 = 0 ∧
  r.n_nonconformant_pages.getD 0 = 0 ∧
  r.n_lab_issues.getD 0 = 0 ∧
  r.n_uncoded_terms.getD 0 = 0 ∧
  r.n_open_edrr_issues.getD 0 = 0 ∧
  r.n_sae_pending_actions.getD 0 = 0 ∧
  r.pct_crfs_verified.getD 0 ≥ 1 ∧
  r.pct_crfs_signed.getD 0 ≥ 1 ∧
  r.pct_crfs_overdue.getD 0 = 0

instance (r : ScoreRow) : Decidable (cleanConds r) := by
  unfold cleanConds
  infer_instance

/-- Embedding of `compute_clean_patient_flags` (scoring.py lines 5-50)
restricted to the derived `clean_patient` column: the row's flag is the
`astype(int)` of the AND of the eleven conditions. -/
def cleanPatientFlag (r : ScoreRow) : ℕ :=
  if cleanConds r then 1 else 0

/-- Embedding of `_bounded_inverse_rate` (scoring.py lines 54-57):
`1 - np.clip(value / threshold, 0, 1)`. -/
def boundedInverseRate (value threshold : ℚ) : ℚ :=
  1 - min (max (value / threshold) 0) 1

/-- Sub-score `s_missing` (scoring.py lines 69-71). -/
def sMissing (r : ScoreRow) (tMissing : ℚ) : ℚ :=
  boundedInverseRate (r.n_missing_visits.getD 0 + r.n_missing_pages.getD 0) tMissing

/-- Sub-score `s_queries` (scoring.py line 72). -/
def sQueries (r : ScoreRow) (tQueries : ℚ) : ℚ :=
  boundedInverseRate (r.n_open_queries.getD 0) tQueries

/-- Sub-score `s_verification` (scoring.py lines 73-77): a direct
weighted blend of the CRF percentage columns (absent column or NaN cell
read as 0 through `d.get(col, 0).fillna(0)`). -/
def sVerification (r : ScoreRow) : ℚ :=
  0.4 * r.pct_crfs_signed.getD 0 +
  0.4 * r.pct_crfs_verified.getD 0 +
  0.2 * (1 - r.pct_crfs_overdue.getD 0)

/-- Sub-score `s_lab` (scoring.py line 78). -/
def sLab (r : ScoreRow) (tLab : ℚ) : ℚ :=
  boundedInverseRate (r.n_lab_issues.getD 0) tLab

/-- Sub-score `s_coding` (scoring.py line 79). -/
def sCoding (r : ScoreRow) (tCoding : ℚ) : ℚ :=
  boundedInverseRate (r.n_uncoded_terms.getD 0) tCoding

/-- Sub-score `s_safety` (scoring.py line 80). -/
def sSafety (r : ScoreRow) (tSafety : ℚ) : ℚ :=
  boundedInverseRate (r.n_sae_pending_actions.getD 0) tSafety

/-- Composite DQI of `compute_dqi` (scoring.py lines 82-89): the
fixed-weight sum of the six sub-scores. -/
def computeDqi (r : ScoreRow) (tMissing tQueries tLab tCoding tSafety : ℚ) : ℚ :=
  0.15 * sMissing r tMissing +
  0.20 * sQueries r tQueries +
  0.20 * sVerification r +
  0.10 * sLab r tLab +
  0.10 * sCoding r tCoding +
  0.25 * sSafety r tSafety

/-- The DQI with the default thresholds of `compute_dqi`'s signature
(scoring.py lines 60-65): missing=3, queries=10, lab=3, coding=5, safety=1. -/
def computeDqiDefault (r : ScoreRow) : ℚ :=
  computeDqi r 3 10 3 5 1

/-- The three band labels produced by `pd.cut` in scoring.py lines 91-95. -/
inductive Band where
  | Red
  | Amber
  | Green
  deriving DecidableEq, Repr

/-- Embedding of the `dqi_band` column (scoring.py lines 91-95):
`pd.cut(dqi, bins=[-0.01, 0.6, 0.85, 1.0], labels=[Red, Amber, Green])`.
`pd.cut` uses right-closed intervals `(-0.01, 0.6]`, `(0.6, 0.85]`,
`(0.85, 1.0]` and labels a value outside every interval as NaN,
modelled here as `none`. -/
def dqiBand (x : ℚ) : Option Band :=
  if -0.01 < x ∧ x ≤ 0.6 then some Band.Red
  else if 0.6 < x ∧ x ≤ 0.85 then some Band.Amber
  else if 0.85 < x ∧ x ≤ 1 then some Band.Green
  else none

/-- A fully-clean score row: all counts present and zero, full
verification and signature, no overdue CRFs. -/
def cleanRow : ScoreRow where
  n_missing_visits := some 0
  n_missing_pages := some 0
  n_open_queries := some 0
  n_nonconformant_pages := some 0
  n_lab_issues := some 0
  n_uncoded_terms := some 0
  n_open_edrr_issues := some 0
  n_sae_pending_actions := some 0
  pct_crfs_verified := some 1
  pct_crfs_signed := some 1
  pct_crfs_overdue := some 0

/-- A score row that differs from `cleanRow` only in reporting CRF
verification and signature rates above 100%. -/
def overRow : ScoreRow :=
  { cleanRow with pct_crfs_verified := some 2, pct_crfs_signed := some 2 }

/-- A score row whose three CRF percentage columns are absent and whose
count columns are all present with value 0. -/
def absentPctRow : ScoreRow :=
  { cleanRow with
      pct_crfs_verified := none
      pct_crfs_signed := none
      pct_crfs_overdue := none }

/-! ### Association-list model of DataFrame columns

A table row is an association list from column name to cell value;
all rows of one DataFrame share the same column set, so column-level
operations (`rename`, `df[c] = v`, membership tests on `df.columns`)
are modelled on a single representative row.  For the key-normalization
functions the value type is `Option String`: `none` models a NaN cell
(`np.nan`), `some s` a string cell. -/

/-- Membership of a column name in `df.columns`. -/
def hasCol (row : List (String × β)) (c : String) : Bool :=
  (row.lookup c).isSome

/-- Embedding of `df.rename(columns={old: tgt})`: every column named
`old` is renamed to `tgt`, values unchanged. -/
def renameCol (row : List (String × β)) (old tgt : String) : List (String × β) :=
  row.map (fun p => if p.1 = old then (tgt, p.2) else p)

/-- Embedding of the column assignment `df[c] = v` (a uniform value):
replaces the column if it exists, otherwise appends it. -/
def setCol (row : List (String × β)) (c : String) (v : β) : List (String × β) :=
  if hasCol row c then row.map (fun p => if p.1 = c then (c, v) else p)
  else row ++ [(c, v)]

/-- Alias lists tried by `normalize_keys` for `site_id`
(feature_engineering.py line 26). -/
def siteAliases : List String :=
  ["site", "site_number", "study_site_number", "siteid", "site_id_"]

/-- Alias lists tried by `normalize_keys` for `subject_id`
(feature_engineering.py line 33). -/
def subjectAliases : List String :=
  ["subject", "subjectname", "subject_id_", "subject_name"]

/-- Lines 21-22 of feature_engineering.py: a missing `study_id` column
is created filled with `np.nan` (modelled `none`). -/
def nkStudyStep (row : List (String × Option String)) : List (String × Option String) :=
  if hasCol row "study_id" then row else row ++ [("study_id", none)]

/-- Lines 25-29 of feature_engineering.py: the first present `site_id`
alias is renamed; when no alias is present nothing happens — the
column is left absent. -/
def nkSiteStep (r1 : List (String × Option String)) : List (String × Option String) :=
  if hasCol r1 "site_id" then r1
  else
    match siteAliases.find? (fun a => hasCol r1 a) with
    | some a => renameCol r1 a "site_id"
    | none => r1

/-- Lines 32-36 of feature_engineering.py: same for `subject_id`. -/
def nkSubjectStep (r2 : List (String × Option String)) : List (String × Option String) :=
  if hasCol r2 "subject_id" then r2
  else
    match subjectAliases.find? (fun a => hasCol r2 a) with
    | some a => renameCol r2 a "subject_id"
    | none => r2

/-- Embedding of `normalize_keys` (feature_engineering.py lines 14-38). -/
def normalizeKeys (row : List (String × Option String)) : List (String × Option String) :=
  nkSubjectStep (nkSiteStep (nkStudyStep row))

/-- Lines 230-234 of feature_engineering.py: `study_id` from `study`,
else sentinel `"NA"`. -/
def codingStudyStep (row : List (String × Option String)) : List (String × Option String) :=
  if hasCol row "study_id" then row
  else if hasCol row "study" then renameCol row "study" "study_id"
  else row ++ [("study_id", some "NA")]

/-- Lines 237-238 of feature_engineering.py: dummy `site_id = "NA"`
when absent (these files carry no site information). -/
def codingSiteStep (r1 : List (String × Option String)) : List (String × Option String) :=
  if hasCol r1 "site_id" then r1 else r1 ++ [("site_id", some "NA")]

/-- Lines 241-245 of feature_engineering.py: `subject_id` from
`subject`, else sentinel `"NA"`. -/
def codingSubjectStep (r2 : List (String × Option String)) : List (String × Option String) :=
  if hasCol r2 "subject_id" then r2
  else if hasCol r2 "subject" then renameCol r2 "subject" "subject_id"
  else r2 ++ [("subject_id", some "NA")]

/-- Embedding of `_ensure_keys_for_coding` (feature_engineering.py
lines 225-247): forces all three subject-key columns to exist, renaming
`study`/`subject` when present and inserting the sentinel `"NA"`
otherwise. -/
def ensureKeysForCoding (row : List (String × Option String)) : List (String × Option String) :=
  codingSubjectStep (codingSiteStep (codingStudyStep row))

/-- Alias list tried by `aggregate_edrr` for `site_id`
(feature_engineering.py line 366). -/
def edrrSiteAliases : List String :=
  ["site", "site_number", "sitenumber", "study_site_number", "siteid"]

/-- Alias list tried by `aggregate_edrr` for `subject_id`
(feature_engineering.py line 376). -/
def edrrSubjectAliases : List String :=
  ["subject", "subjectname", "subject_name", "patient_id", "patient"]

/-- Lines 356-362 of feature_engineering.py: `study_id` from `study` or
`study_name`, else sentinel `"NA"`. -/
def edrrStudyStep (row : List (String × Option String)) : List (String × Option String) :=
  if hasCol row "study_id" then row
  else if hasCol row "study" then renameCol row "study" "study_id"
  else if hasCol row "study_name" then renameCol row "study_name" "study_id"
  else row ++ [("study_id", some "NA")]

/-- Lines 365-372 of feature_engineering.py: rename the first present
`site_id` alias; the `for ... else` inserts the sentinel `"NA"` when no
alias exists. -/
def edrrSiteStep (r1 : List (String × Option String)) : List (String × Option String) :=
  if hasCol r1 "site_id" then r1
  else
    match edrrSiteAliases.find? (fun a => hasCol r1 a) with
    | some a => renameCol r1 a "site_id"
    | none => r1 ++ [("site_id", some "NA")]

/-- Lines 375-381 of feature_engineering.py: same for `subject_id`. -/
def edrrSubjectStep (r2 : List (String × Option String)) : List (String × Option String) :=
  if hasCol r2 "subject_id" then r2
  else
    match edrrSubjectAliases.find? (fun a => hasCol r2 a) with
    | some a => renameCol r2 a "subject_id"
    | none => r2 ++ [("subject_id", some "NA")]

/-- Embedding of the key-normalization prefix of `aggregate_edrr`
(feature_engineering.py lines 353-381). -/
def edrrEnsureKeys (row : List (String × Option String)) : List (String × Option String) :=
  edrrSubjectStep (edrrSiteStep (edrrStudyStep row))

/-! ### CPID query-column slice of engineer_from_cpid -/

/-- The query-column rename map of `engineer_from_cpid`
(feature_engineering.py lines 424-434), applied name-wise (`df.rename`
only touches columns that exist, which a name-wise map reproduces). -/
def renameCpidCol (c : String) : String :=
  if c = "dm_queries" then "n_dm_queries"
  else if c = "clinical_queries" then "n_clinical_queries"
  else if c = "medical_queries" then "n_medical_queries"
  else if c = "site_queries" then "n_site_queries"
  else if c = "field_monitor_queries" then "n_field_monitor_queries"
  else if c = "coding_queries" then "n_coding_queries"
  else if c = "safety_queries" then "n_safety_queries"
  else if c = "total_queries" then "n_total_queries"
  else c

/-- Python's `c.endswith("_queries")`, as a suffix test on the
character list (kept kernel-computable). -/
def endsWithQueries (c : String) : Bool :=
  List.isSuffixOf "_queries".toList c.toList

/-- Lines 437-442 of feature_engineering.py: derive `n_total_queries`
when absent as the row sum of every column whose name ends in
`_queries` (the sum over no such columns is the code's explicit 0). -/
def engineerTotalStep (r1 : List (String × ℚ)) : List (String × ℚ) :=
  if hasCol r1 "n_total_queries" then r1
  else setCol r1 "n_total_queries"
    (((r1.filter (fun p => endsWithQueries p.1)).map Prod.snd).sum)

/-- Lines 486-491 of feature_engineering.py: `n_open_queries` is the
`open_queries` column when present, else `n_total_queries`. -/
def engineerOpenStep (r2 : List (String × ℚ)) : List (String × ℚ) :=
  match r2.lookup "open_queries" with
  | some v => setCol r2 "n_open_queries" v
  | none => setCol r2 "n_open_queries" ((r2.lookup "n_total_queries").getD 0)

/-- The query slice of `engineer_from_cpid` (feature_engineering.py
lines 424-442 and 486-491) on one row: rename, total derivation, then
open-query assignment, in source order.  The CRF-percentage
assignments between the two steps touch no `*_queries` column and are
omitted from this slice. -/
def engineerQueryCols (row : List (String × ℚ)) : List (String × ℚ) :=
  engineerOpenStep (engineerTotalStep (row.map (fun p => (renameCpidCol p.1, p.2))))

/-! ### SAE workbook sheet selection (data_ingestion.py read_sae) -/

/-- ASCII lower-casing of one character (Python `str.lower` on the
ASCII range, which covers workbook sheet names). -/
def lowerChar (c : Char) : Char :=
  if 'A' ≤ c ∧ c ≤ 'Z' then Char.ofNat (c.toNat + 32) else c

/-- Substring containment on character lists (Python `in` on strings). -/
def hasSubstr : List Char → List Char → Bool
  | l, p =>
    if decide (l.take p.length = p) then true
    else
      match l with
      | [] => false
      | _ :: t => hasSubstr t p

/-- Python `marker in s.lower()` for a sheet name. -/
def markerIn (s marker : String) : Bool :=
  hasSubstr (s.toList.map lowerChar) marker.toList

/-- The sheet-scanning loop of `read_sae` (data_ingestion.py lines
139-144): the first sheet containing "dm" becomes the DM sheet;
otherwise (`elif`) a sheet containing "safety" becomes the safety sheet
when none is assigned yet.  The `elif` means the sheet that just became
the DM sheet is never tested for the safety marker. -/
def saeSheetScan : List String → Option String → Option String →
    Option String × Option String
  | [], dm, safety => (dm, safety)
  | s :: rest, dm, safety =>
    if markerIn s "dm" && dm.isNone then saeSheetScan rest (some s) safety
    else if markerIn s "safety" && safety.isNone then saeSheetScan rest dm (some s)
    else saeSheetScan rest dm safety

/-- The sheet selection of `read_sae` (data_ingestion.py lines 136-149):
marker scan, then positional fallbacks — first sheet for DM, second
sheet (when more than one) for safety. -/
def readSaeSelect (sheets : List String) : Option String × Option String :=
  (match (saeSheetScan sheets none none).1 with
   | some d => some d
   | none => sheets.head?,
   match (saeSheetScan sheets none none).2 with
   | some s => some s
   | none => if sheets.length > 1 then sheets[1]? else none)

/-- Modelled from the claim's words: the DM sheet is the (first) sheet
whose name contains the DM marker, with positional fallback to the
first sheet. -/
def dmChoiceSpec (sheets : List String) : Option String :=
  match sheets.find? (fun s => markerIn s "dm") with
  | some d => some d
  | none => sheets.head?

/-- Modelled from the claim's words: the safety sheet is the (first)
sheet whose name contains the safety marker, with positional fallback
to the second sheet. -/
def safetyChoiceClaimed (sheets : List String) : Option String :=
  match (sheets.filter (fun s => markerIn s "safety")).head? with
  | some s => some s
  | none => sheets[1]?

/-- Amended safety selection: the first sheet containing the safety
marker, skipping the sheet that the scan selected as the DM sheet, with
positional fallback to the second sheet. -/
def safetyChoiceAmended (sheets : List String) : Option String :=
  match (sheets.filter (fun s =>
      markerIn s "safety" &&
        !(sheets.find? (fun x => markerIn x "dm") == some s))).head? with
  | some s => some s
  | none => sheets[1]?

/-! ### Subject-level aggregation and the snapshot builder
(feature_engineering.py)

Subject keys are the `SUBJECT_KEY` triple.  Each aggregator takes rows
that already carry the canonical key and driver columns (the
alias/sentinel resolution is modelled separately above) and reduces
them to one row per key, exactly as the `groupby(SUBJECT_KEY)` calls
do.  `groupby` orders groups by sorted key while this model keeps
first-appearance order; every property proved below is insensitive to
row order.  A pandas `count` over a non-null column equals the group
size; `fillna(0)` after a merge is modelled by substituting the zero
metric at merge time, since no join ever reads a metric value. -/

/-- The `SUBJECT_KEY` triple (feature_engineering.py line 12). -/
abbrev SubjectKey := String × String × String

/-- One row of the visit-tracking source: key plus the days-outstanding
column (the counted visit column is non-null on every row). -/
structure VisitRow where
  key : SubjectKey
  days : ℚ
  deriving DecidableEq, Repr

/-- One row of the missing-pages source. -/
structure PageRow where
  key : SubjectKey
  days : ℚ
  deriving DecidableEq, Repr

/-- One row of the lab-issue log (only the counted issue column
matters, which is non-null on every row). -/
structure LabRow where
  key : SubjectKey
  deriving DecidableEq, Repr

/-- One row of an adverse-event sheet: key, discrepancy identifier and
the action-status text. -/
structure SaeRow where
  key : SubjectKey
  discId : String
  actionStatus : String
  deriving DecidableEq, Repr

/-- One row of a coding (MedDRA/WHODD) log with the canonical columns
present. -/
structure CodingRow where
  key : SubjectKey
  requireCoding : String
  codingStatus : String
  deriving DecidableEq, Repr

/-- One row of the compiled-EDRR log. -/
structure EdrrRow where
  key : SubjectKey
  openIssues : ℚ
  deriving DecidableEq, Repr

/-- One row of the primary CPID population table: key plus its columns
(the engineered query columns live in `cols`, see `engineerQueryCols`). -/
structure CpidRow where
  key : SubjectKey
  cols : List (String × ℚ)
  deriving DecidableEq, Repr

/-- Generic `groupby(SUBJECT_KEY, as_index=False).agg(...)`: one output
row per distinct key, carrying the reduction of the group. -/
def groupByKey {α β : Type} (keyOf : α → SubjectKey) (reduce : List α → β)
    (rows : List α) : List (SubjectKey × β) :=
  ((rows.map keyOf).dedup).map
    (fun k => (k, reduce (rows.filter (fun r => decide (keyOf r = k)))))

/-- Maximum of a non-empty ℚ column (pandas `max` over a group; groups
are never empty). -/
def qMax : List ℚ → ℚ
  | [] => 0
  | x :: xs => xs.foldl max x

/-- Embedding of `aggregate_visits` (feature_engineering.py lines
44-72): empty input gives the empty aggregate; otherwise count of visit
rows and max days outstanding per subject. -/
def aggregateVisits (visits : List VisitRow) : List (SubjectKey × (ℚ × ℚ)) :=
  if visits = [] then []
  else groupByKey VisitRow.key
    (fun g => ((g.length : ℚ), qMax (g.map VisitRow.days))) visits

/-- Embedding of `aggregate_missing_pages` (lines 75-102): count of
missing-page rows and max days missing per subject. -/
def aggregateMissingPages (pages : List PageRow) : List (SubjectKey × (ℚ × ℚ)) :=
  if pages = [] then []
  else groupByKey PageRow.key
    (fun g => ((g.length : ℚ), qMax (g.map PageRow.days))) pages

/-- Embedding of `aggregate_lab_issues` (lines 105-120): count of lab
issues per subject. -/
def aggregateLabIssues (lab : List LabRow) : List (SubjectKey × ℚ) :=
  if lab = [] then []
  else groupByKey LabRow.key (fun g => (g.length : ℚ)) lab

/-- Pending-action flag of `aggregate_sae` (lines 139-144):
`action_status.str.contains("Pending", case=False)`. -/
def saePending (r : SaeRow) : Bool :=
  hasSubstr (r.actionStatus.toList.map lowerChar) "pending".toList

/-- One adverse-event sheet's per-subject reduction (lines 154-159 /
186-191): distinct discrepancy count and pending-flag sum. -/
def saeGroup (rows : List SaeRow) : List (SubjectKey × (ℚ × ℚ)) :=
  groupByKey SaeRow.key
    (fun g => (((g.map SaeRow.discId).dedup.length : ℚ),
      ((g.filter saePending).length : ℚ))) rows

/-- The five SAE metric columns produced by `aggregate_sae`. -/
structure SaeMetrics where
  n_sae_dm : ℚ
  n_sae_dm_pending : ℚ
  n_sae_safety : ℚ
  n_sae_safety_pending : ℚ
  n_sae_pending_actions : ℚ
  deriving DecidableEq, Repr

/-- Pandas outer merge on the subject key of two aggregates: all left
rows (with their right match when any), then unmatched right rows. -/
def outerMerge {β γ : Type} (a : List (SubjectKey × β)) (b : List (SubjectKey × γ)) :
    List (SubjectKey × (Option β × Option γ)) :=
  a.map (fun p => (p.1, (some p.2, List.lookup p.1 b))) ++
    (b.filter (fun q => decide (q.1 ∉ a.map Prod.fst))).map
      (fun q => (q.1, (none, some q.2)))

/-- Embedding of `aggregate_sae` (lines 123-220): per-sheet reductions,
outer merge when both sheets have rows, zero-fill of the missing
sheet's columns, and the pending total. -/
def aggregateSae (dm safety : List SaeRow) : List (SubjectKey × SaeMetrics) :=
  if dm = [] ∧ safety = [] then []
  else if safety = [] then
    (saeGroup dm).map (fun p => (p.1, ⟨p.2.1, p.2.2, 0, 0, p.2.2 + 0⟩))
  else if dm = [] then
    (saeGroup safety).map (fun p => (p.1, ⟨0, 0, p.2.1, p.2.2, 0 + p.2.2⟩))
  else
    (outerMerge (saeGroup dm) (saeGroup safety)).map (fun p =>
      (p.1,
        ⟨(p.2.1.getD (0, 0)).1, (p.2.1.getD (0, 0)).2,
         (p.2.2.getD (0, 0)).1, (p.2.2.getD (0, 0)).2,
         (p.2.1.getD (0, 0)).2 + (p.2.2.getD (0, 0)).2⟩))

/-- ASCII upper-casing of one character (Python `str.upper`). -/
def upperChar (c : Char) : Char :=
  if 'a' ≤ c ∧ c ≤ 'z' then Char.ofNat (c.toNat - 32) else c

/-- Requires-coding flag (lines 258-261): `require_coding` upper-cased
equals "YES". -/
def requiresCoding (r : CodingRow) : Bool :=
  (r.requireCoding.toList.map upperChar) == "YES".toList

/-- Uncoded flag (lines 264-267): `coding_status` contains "UnCoded"
case-insensitively. -/
def isUncoded (r : CodingRow) : Bool :=
  hasSubstr (r.codingStatus.toList.map lowerChar) "uncoded".toList

/-- One coding log's per-subject reduction (lines 270-276 / 293-299):
term count, uncoded count, requires-coding count. -/
def codingGroup (rows : List CodingRow) : List (SubjectKey × (ℚ × ℚ × ℚ)) :=
  groupByKey CodingRow.key
    (fun g => ((g.length : ℚ), ((g.filter isUncoded).length : ℚ),
      ((g.filter requiresCoding).length : ℚ))) rows

/-- The eight coding metric columns produced by `aggregate_coding`. -/
structure CodingMetrics where
  n_medra_terms : ℚ
  n_medra_uncoded : ℚ
  n_medra_requires_coding : ℚ
  n_whodd_terms : ℚ
  n_whodd_uncoded : ℚ
  n_whodd_requires_coding : ℚ
  n_uncoded_terms : ℚ
  n_terms_requires_coding : ℚ
  deriving DecidableEq, Repr

/-- Embedding of `aggregate_coding` (lines 250-341): MedDRA and WHODD
reductions, outer merge, zero-fill and the two totals. -/
def aggregateCoding (medra whodd : List CodingRow) : List (SubjectKey × CodingMetrics) :=
  if medra = [] ∧ whodd = [] then []
  else if whodd = [] then
    (codingGroup medra).map (fun p =>
      (p.1, ⟨p.2.1, p.2.2.1, p.2.2.2, 0, 0, 0, p.2.2.1 + 0, p.2.2.2 + 0⟩))
  else if medra = [] then
    (codingGroup whodd).map (fun p =>
      (p.1, ⟨0, 0, 0, p.2.1, p.2.2.1, p.2.2.2, 0 + p.2.2.1, 0 + p.2.2.2⟩))
  else
    (outerMerge (codingGroup medra) (codingGroup whodd)).map (fun p =>
      (p.1,
        ⟨(p.2.1.getD (0, 0, 0)).1, (p.2.1.getD (0, 0, 0)).2.1,
         (p.2.1.getD (0, 0, 0)).2.2,
         (p.2.2.getD (0, 0, 0)).1, (p.2.2.getD (0, 0, 0)).2.1,
         (p.2.2.getD (0, 0, 0)).2.2,
         (p.2.1.getD (0, 0, 0)).2.1 + (p.2.2.getD (0, 0, 0)).2.1,
         (p.2.1.getD (0, 0, 0)).2.2 + (p.2.2.getD (0, 0, 0)).2.2⟩))

/-- Embedding of the reduction of `aggregate_edrr` (lines 384-397): sum
of the open-issue counts per subject (keys already ensured by
`edrrEnsureKeys`). -/
def aggregateEdrr (edrr : List EdrrRow) : List (SubjectKey × ℚ) :=
  if edrr = [] then []
  else groupByKey EdrrRow.key (fun g => (g.map EdrrRow.openIssues).sum) edrr

/-- Row-wise embedding of `engineer_from_cpid` (lines 404-492): per-row
column engineering on the CPID table; the subject key is untouched.
Only the query-column slice (`engineerQueryCols`) is carried. -/
def engineerFromCpid (cpid : List CpidRow) : List CpidRow :=
  cpid.map (fun r => { r with cols := engineerQueryCols r.cols })

/-- One row of the final subject snapshot: the CPID base row plus one
optional metrics group per merged aggregate.  `none` models the metric
columns being absent from the snapshot (their aggregate was empty and
skipped by `if not feat.empty`); `some m` models present, zero-filled
columns. -/
structure SnapRow where
  base : CpidRow
  visits : Option (ℚ × ℚ)
  missingPages : Option (ℚ × ℚ)
  lab : Option ℚ
  sae : Option SaeMetrics
  coding : Option CodingMetrics
  edrr : Option ℚ
  deriving DecidableEq, Repr

/-- A CPID row before any merge: metric columns all absent. -/
def snapInit (r : CpidRow) : SnapRow :=
  ⟨r, none, none, none, none, none, none⟩

def setVisits (r : SnapRow) (m : Option (ℚ × ℚ)) : SnapRow := { r with visits := m }

def setPages (r : SnapRow) (m : Option (ℚ × ℚ)) : SnapRow := { r with missingPages := m }

def setLab (r : SnapRow) (m : Option ℚ) : SnapRow := { r with lab := m }

def setSae (r : SnapRow) (m : Option SaeMetrics) : SnapRow := { r with sae := m }

def setCoding (r : SnapRow) (m : Option CodingMetrics) : SnapRow := { r with coding := m }

def setEdrr (r : SnapRow) (m : Option ℚ) : SnapRow := { r with edrr := m }

/-- One merge step of `build_subject_snapshot` (lines 518-524): an empty
aggregate is skipped (`if not feat.empty`); otherwise a left-outer join
on the subject key — every base row is kept, matched against each
aggregate row sharing its key, and an unmatched row receives the zero
metrics (the later `fillna(0)`; no join reads a metric value, so
zero-filling at merge time is equivalent). -/
def mergeStep {M : Type} (rows : List SnapRow) (feat : List (SubjectKey × M))
    (z : M) (set : SnapRow → Option M → SnapRow) : List SnapRow :=
  if feat.isEmpty then rows
  else rows.flatMap (fun r =>
    match feat.filter (fun p => decide (p.1 = r.base.key)) with
    | [] => [set r (some z)]
    | ms => ms.map (fun p => set r (some p.2)))

/-- The engineered CPID base of `build_subject_snapshot` (line 500):
one snapshot row per CPID row, no metric columns yet. -/
def snapBase (cpid : List CpidRow) : List SnapRow :=
  (engineerFromCpid cpid).map snapInit

/-- Merge stages of `build_subject_snapshot` (lines 518-520), in the
fixed source order visits, missing-pages, lab, SAE, coding, EDRR. -/
def snapStage1 (cpid : List CpidRow) (visits : List VisitRow) : List SnapRow :=
  mergeStep (snapBase cpid) (aggregateVisits visits) (0, 0) setVisits

def snapStage2 (cpid : List CpidRow) (visits : List VisitRow)
    (pages : List PageRow) : List SnapRow :=
  mergeStep (snapStage1 cpid visits) (aggregateMissingPages pages) (0, 0) setPages

def snapStage3 (cpid : List CpidRow) (visits : List VisitRow)
    (pages : List PageRow) (lab : List LabRow) : List SnapRow :=
  mergeStep (snapStage2 cpid visits pages) (aggregateLabIssues lab) 0 setLab

def snapStage4 (cpid : List CpidRow) (visits : List VisitRow)
    (pages : List PageRow) (lab : List LabRow)
    (saeDm saeSafety : List SaeRow) : List SnapRow :=
  mergeStep (snapStage3 cpid visits pages lab) (aggregateSae saeDm saeSafety)
    ⟨0, 0, 0, 0, 0⟩ setSae

def snapStage5 (cpid : List CpidRow) (visits : List VisitRow)
    (pages : List PageRow) (lab : List LabRow) (saeDm saeSafety : List SaeRow)
    (medra whodd : List CodingRow) : List SnapRow :=
  mergeStep (snapStage4 cpid visits pages lab saeDm saeSafety)
    (aggregateCoding medra whodd) ⟨0, 0, 0, 0, 0, 0, 0, 0⟩ setCoding

/-- Embedding of `build_subject_snapshot` (feature_engineering.py lines
498-525): engineer the CPID base, aggregate each auxiliary source, then
left-join the non-empty aggregates in the fixed source order. -/
def buildSubjectSnapshot (cpid : List CpidRow) (visits : List VisitRow)
    (pages : List PageRow) (lab : List LabRow) (saeDm saeSafety : List SaeRow)
    (medra whodd : List CodingRow) (edrr : List EdrrRow) : List SnapRow :=
  mergeStep (snapStage5 cpid visits pages lab saeDm saeSafety medra whodd)
    (aggregateEdrr edrr) 0 setEdrr

/-! ### Association-list lemmas -/

theorem lookup_singleton {β : Type} (c d : String) (v : β) :
    List.lookup c [(d, v)] = if c = d then some v else none := by
  by_cases h : c = d
  · subst h
    simp [List.lookup_cons]
  · rw [List.lookup_cons, beq_eq_false_iff_ne.mpr h, if_neg h]
    rfl

theorem hasCol_cons_ne {β : Type} (t : List (String × β)) (k c : String) (v : β)
    (h : c ≠ k) : hasCol ((k, v) :: t) c = hasCol t c := by
  unfold hasCol
  rw [List.lookup_cons, beq_eq_false_iff_ne.mpr h]

theorem hasCol_iff_mem {β : Type} (row : List (String × β)) (c : String) :
    hasCol row c = true ↔ c ∈ row.map Prod.fst := by
  induction row with
  | nil => simp [hasCol, List.lookup]
  | cons p t ih =>
    obtain ⟨k, v⟩ := p
    by_cases h : c = k
    · subst h
      constructor
      · intro
        simp
      · intro
        simp [hasCol, List.lookup_cons]
    · rw [hasCol_cons_ne t k c v h, ih]
      simp [h]

theorem lookup_append_ne {β : Type} (row : List (String × β)) (d c : String) (v : β)
    (h : c ≠ d) : (row ++ [(d, v)]).lookup c = row.lookup c := by
  rw [List.lookup_append, lookup_singleton, if_neg h]
  cases row.lookup c <;> rfl

theorem lookup_append_self {β : Type} (row : List (String × β)) (d : String) (v : β)
    (h : hasCol row d = false) : (row ++ [(d, v)]).lookup d = some v := by
  have hnone : row.lookup d = none := by
    unfold hasCol at h
    exact Option.not_isSome_iff_eq_none.mp (by simp [h])
  rw [List.lookup_append, hnone, lookup_singleton, if_pos rfl]
  rfl

theorem hasCol_append_self {β : Type} (row : List (String × β)) (d : String) (v : β) :
    hasCol (row ++ [(d, v)]) d = true := by
  unfold hasCol
  rw [List.lookup_append, lookup_singleton, if_pos rfl]
  cases row.lookup d <;> rfl

theorem hasCol_append_ne {β : Type} (row : List (String × β)) (d c : String) (v : β)
    (h : c ≠ d) : hasCol (row ++ [(d, v)]) c = hasCol row c := by
  unfold hasCol
  rw [lookup_append_ne row d c v h]

theorem lookup_renameCol_ne {β : Type} (row : List (String × β)) (old tgt c : String)
    (h1 : c ≠ old) (h2 : c ≠ tgt) :
    (renameCol row old tgt).lookup c = row.lookup c := by
  induction row with
  | nil => rfl
  | cons p t ih =>
    obtain ⟨k, v⟩ := p
    simp only [renameCol, List.map_cons] at ih ⊢
    by_cases hk : k = old
    · subst hk
      rw [show (if (k, v).1 = k then (tgt, (k, v).2) else (k, v)) = (tgt, v) from by simp]
      rw [List.lookup_cons, List.lookup_cons, beq_eq_false_iff_ne.mpr h1,
        beq_eq_false_iff_ne.mpr h2]
      exact ih
    · rw [show (if (k, v).1 = old then (tgt, (k, v).2) else (k, v)) = (k, v) from
        by simp [hk]]
      rw [List.lookup_cons, List.lookup_cons]
      cases hck : (c == k) with
      | true => rfl
      | false => exact ih

theorem hasCol_renameCol_ne {β : Type} (row : List (String × β)) (old tgt c : String)
    (h1 : c ≠ old) (h2 : c ≠ tgt) :
    hasCol (renameCol row old tgt) c = hasCol row c := by
  unfold hasCol
  rw [lookup_renameCol_ne row old tgt c h1 h2]

theorem hasCol_renameCol_target {β : Type} (row : List (String × β)) (old tgt : String)
    (h : hasCol row old = true) : hasCol (renameCol row old tgt) tgt = true := by
  induction row with
  | nil => simp [hasCol, List.lookup] at h
  | cons p t ih =>
    obtain ⟨k, v⟩ := p
    simp only [renameCol, List.map_cons] at ih ⊢
    by_cases hk : k = old
    · subst hk
      rw [show (if (k, v).1 = k then (tgt, (k, v).2) else (k, v)) = (tgt, v) from by simp]
      unfold hasCol
      rw [List.lookup_cons]
      simp
    · have hok : old ≠ k := fun hh => hk hh.symm
      have ht : hasCol t old = true := by rw [← hasCol_cons_ne t k old v hok]; exact h
      rw [show (if (k, v).1 = old then (tgt, (k, v).2) else (k, v)) = (k, v) from
        by simp [hk]]
      by_cases hkt : tgt = k
      · subst hkt
        unfold hasCol
        rw [List.lookup_cons]
        simp
      · rw [hasCol_cons_ne _ k tgt v hkt]
        exact ih ht

theorem lookup_mapSet {β : Type} (row : List (String × β)) (c : String) (v : β)
    (h : hasCol row c = true) :
    (row.map (fun p => if p.1 = c then (c, v) else p)).lookup c = some v := by
  induction row with
  | nil => simp [hasCol, List.lookup] at h
  | cons p t ih =>
    obtain ⟨k, w⟩ := p
    simp only [List.map_cons] at ih ⊢
    by_cases hk : k = c
    · subst hk
      rw [show (if (k, w).1 = k then (k, v) else (k, w)) = (k, v) from by simp]
      unfold List.lookup
      simp
    · have hck : c ≠ k := fun hh => hk hh.symm
      have ht : hasCol t c = true := by rw [← hasCol_cons_ne t k c w hck]; exact h
      rw [show (if (k, w).1 = c then (c, v) else (k, w)) = (k, w) from by simp [hk]]
      rw [List.lookup_cons, beq_eq_false_iff_ne.mpr hck]
      exact ih ht

theorem lookup_setCol_self {β : Type} (row : List (String × β)) (c : String) (v : β) :
    (setCol row c v).lookup c = some v := by
  unfold setCol
  by_cases h : hasCol row c
  · rw [if_pos h]
    exact lookup_mapSet row c v h
  · rw [if_neg h]
    exact lookup_append_self row c v (by simpa using h)

theorem lookup_setCol_ne {β : Type} (row : List (String × β)) (c c' : String) (v : β)
    (h : c' ≠ c) : (setCol row c v).lookup c' = row.lookup c' := by
  unfold setCol
  by_cases hc : hasCol row c
  · rw [if_pos hc]
    clear hc
    induction row with
    | nil => rfl
    | cons p t ih =>
      obtain ⟨k, w⟩ := p
      simp only [List.map_cons] at ih ⊢
      by_cases hk : k = c
      · subst hk
        rw [show (if (k, w).1 = k then (k, v) else (k, w)) = (k, v) from by simp]
        rw [List.lookup_cons, List.lookup_cons, beq_eq_false_iff_ne.mpr h]
        exact ih
      · rw [show (if (k, w).1 = c then (c, v) else (k, w)) = (k, w) from by simp [hk]]
        rw [List.lookup_cons, List.lookup_cons]
        cases hck : (c' == k) with
        | true => rfl
        | false => exact ih
  · rw [if_neg hc]
    exact lookup_append_ne row c c' v h

/-- Helper range fact: `np.clip(v/t, 0, 1)` keeps every sub-score of
`_bounded_inverse_rate` inside `[0, 1]`, whatever the inputs. -/
theorem boundedInverseRate_mem (v t : ℚ) :
    0 ≤ boundedInverseRate v t ∧ boundedInverseRate v t ≤ 1 := by
  unfold boundedInverseRate
  constructor
  · have h : min (max (v / t) 0) 1 ≤ 1 := min_le_right _ _
    linarith
  · have h0 : (0 : ℚ) ≤ max (v / t) 0 := le_max_right _ _
    have h : (0 : ℚ) ≤ min (max (v / t) 0) 1 := le_min h0 (by norm_num)
    linarith

/-- C1 counterexample: the scored snapshot does not restrict the CRF
percentage columns to `[0, 1]` (engineer_from_cpid divides raw counts
without clipping, feature_engineering.py lines 467-484), and on a row
with `pct_crfs_verified = pct_crfs_signed = 2` and every count zero,
`compute_dqi` produces `dqi = 1.16 > 1`, outside `[0, 1]`. -/
theorem C1_counterexample :
    computeDqiDefault overRow = 29 / 25 ∧ ¬ computeDqiDefault overRow ≤ 1 := by
  have h : computeDqiDefault overRow = 29 / 25 := by
    norm_num [computeDqiDefault, computeDqi, sMissing, sQueries, sVerification,
      sLab, sCoding, sSafety, boundedInverseRate, overRow, cleanRow,
      min_def, max_def]
  refine ⟨h, ?_⟩
  rw [h]
  norm_num

/-- C1 (amended): for every subject row whose three CRF percentage
columns (after the code's absent/NaN default of 0) lie in `[0, 1]`, the
composite DQI computed by `compute_dqi` — the fixed-weight sum
`0.15*s_missing + 0.20*s_queries + 0.20*s_verification + 0.10*s_lab +
0.10*s_coding + 0.25*s_safety` — lies in the interval `[0, 1]`. -/
theorem C1_dqi_range (r : ScoreRow)
    (hv0 : 0 ≤ r.pct_crfs_verified.getD 0) (hv1 : r.pct_crfs_verified.getD 0 ≤ 1)
    (hs0 : 0 ≤ r.pct_crfs_signed.getD 0) (hs1 : r.pct_crfs_signed.getD 0 ≤ 1)
    (ho0 : 0 ≤ r.pct_crfs_overdue.getD 0) (ho1 : r.pct_crfs_overdue.getD 0 ≤ 1) :
    0 ≤ computeDqiDefault r ∧ computeDqiDefault r ≤ 1 := by
  have hm := boundedInverseRate_mem (r.n_missing_visits.getD 0 + r.n_missing_pages.getD 0) 3
  have hq := boundedInverseRate_mem (r.n_open_queries.getD 0) 10
  have hl := boundedInverseRate_mem (r.n_lab_issues.getD 0) 3
  have hc := boundedInverseRate_mem (r.n_uncoded_terms.getD 0) 5
  have hsf := boundedInverseRate_mem (r.n_sae_pending_actions.getD 0) 1
  have hver : 0 ≤ sVerification r ∧ sVerification r ≤ 1 := by
    unfold sVerification
    constructor <;> nlinarith
  unfold computeDqiDefault computeDqi sMissing sQueries sLab sCoding sSafety at *
  constructor <;> nlinarith [hm.1, hm.2, hq.1, hq.2, hl.1, hl.2, hc.1, hc.2,
    hsf.1, hsf.2, hver.1, hver.2]

/-- C1 witness: the amended range theorem applied to the fully-clean row. -/
theorem C1_dqi_range_witness :
    0 ≤ computeDqiDefault cleanRow ∧ computeDqiDefault cleanRow ≤ 1 :=
  C1_dqi_range cleanRow (by norm_num [cleanRow]) (by norm_num [cleanRow])
    (by norm_num [cleanRow]) (by norm_num [cleanRow])
    (by norm_num [cleanRow]) (by norm_num [cleanRow])

/-- C2: `compute_clean_patient_flags` sets `clean_patient = 1` iff all
eleven conditions hold simultaneously (eight zero-count conditions,
`pct_crfs_verified ≥ 1.0`, `pct_crfs_signed ≥ 1.0`, `pct_crfs_overdue
= 0`); and a subject violating exactly one condition
(`n_lab_issues = 1`, everything else clean) gets `clean_patient = 0`. -/
theorem C2_clean_patient_iff :
    (∀ a b c d e f g h p q o : ℚ,
      cleanPatientFlag ⟨some a, some b, some c, some d, some e, some f, some g,
        some h, some p, some q, some o⟩ = 1 ↔
      (a = 0 ∧ b = 0 ∧ c = 0 ∧ d = 0 ∧ e = 0 ∧ f = 0 ∧ g = 0 ∧ h = 0 ∧
        1 ≤ p ∧ 1 ≤ q ∧ o = 0)) ∧
    cleanPatientFlag { cleanRow with n_lab_issues := some 1 } = 0 := by
  constructor
  · intro a b c d e f g h p q o
    simp [cleanPatientFlag, cleanConds, ge_iff_le]
  · norm_num [cleanPatientFlag, cleanConds, cleanRow]

/-- C3 counterexample: `pd.cut` labels any value outside the outermost
bucket edges `(-0.01, 1.0]` as NaN, so `dqi = -1` (which satisfies
`dqi ≤ 0.60`) is not banded Red — the band is no label at all.  The
banding is therefore not total on all dqi values as the claim states. -/
theorem C3_counterexample :
    dqiBand (-1) = none ∧ ((-1 : ℚ) ≤ 0.6) := by
  constructor
  · norm_num [dqiBand]
  · norm_num

/-- C3 (amended): on the covered domain `-0.01 < dqi ≤ 1.0` (which
contains every DQI in `[0,1]`) the band is the claimed right-closed
bucketing — `dqi ≤ 0.60` gives Red, `0.60 < dqi ≤ 0.85` gives Amber,
`0.85 < dqi` gives Green — and in particular `band 0.6 = Red`,
`band 0.85 = Amber`, `band 1.0 = Green`; outside `(-0.01, 1.0]` the
value is unlabelled (`none`). -/
theorem C3_band (x : ℚ) (hlo : -0.01 < x) (hhi : x ≤ 1) :
    ((x ≤ 0.6 → dqiBand x = some Band.Red) ∧
     (0.6 < x → x ≤ 0.85 → dqiBand x = some Band.Amber) ∧
     (0.85 < x → dqiBand x = some Band.Green)) ∧
    dqiBand 0.6 = some Band.Red ∧
    dqiBand 0.85 = some Band.Amber ∧
    dqiBand 1 = some Band.Green ∧
    (∀ y : ℚ, y ≤ -0.01 ∨ 1 < y → dqiBand y = none) := by
  refine ⟨⟨?_, ?_, ?_⟩, by norm_num [dqiBand], by norm_num [dqiBand],
    by norm_num [dqiBand], ?_⟩
  · intro hx
    unfold dqiBand
    rw [if_pos ⟨hlo, hx⟩]
  · intro h1 h2
    unfold dqiBand
    rw [if_neg (by intro hc; linarith [hc.2]), if_pos ⟨h1, h2⟩]
  · intro h1
    unfold dqiBand
    rw [if_neg (by intro hc; linarith [hc.2]),
        if_neg (by intro hc; linarith [hc.2]), if_pos ⟨h1, hhi⟩]
  · intro y hy
    unfold dqiBand
    rcases hy with hy | hy
    · rw [if_neg (by intro hc; linarith [hc.1]),
          if_neg (by intro hc; linarith [hc.1]),
          if_neg (by intro hc; linarith [hc.1])]
    · rw [if_neg (by intro hc; linarith [hc.2]),
          if_neg (by intro hc; linarith [hc.2]),
          if_neg (by intro hc; linarith [hc.2])]

/-- C3 witness: the amended banding theorem applied at `dqi = 0.5`. -/
theorem C3_band_witness :
    (((0.5 : ℚ) ≤ 0.6 → dqiBand 0.5 = some Band.Red) ∧
     ((0.6 : ℚ) < 0.5 → (0.5 : ℚ) ≤ 0.85 → dqiBand 0.5 = some Band.Amber) ∧
     ((0.85 : ℚ) < 0.5 → dqiBand 0.5 = some Band.Green)) ∧
    dqiBand 0.6 = some Band.Red ∧
    dqiBand 0.85 = some Band.Amber ∧
    dqiBand 1 = some Band.Green ∧
    (∀ y : ℚ, y ≤ -0.01 ∨ 1 < y → dqiBand y = none) :=
  C3_band 0.5 (by norm_num) (by norm_num)

/-- C7: for every raw count `v` and positive threshold `t`, the
sub-score `_bounded_inverse_rate(v, t)` equals `1 - clip(v/t, 0, 1)`;
hence `v = 0` gives 1, `v = t` gives 0, `v > t` also gives 0, and the
result is never negative. -/
theorem C7_bounded_inverse_rate (v t : ℚ) (ht : 0 < t) :
    boundedInverseRate v t = 1 - min (max (v / t) 0) 1 ∧
    boundedInverseRate 0 t = 1 ∧
    boundedInverseRate t t = 0 ∧
    (t < v → boundedInverseRate v t = 0) ∧
    0 ≤ boundedInverseRate v t := by
  refine ⟨rfl, ?_, ?_, ?_, (boundedInverseRate_mem v t).1⟩
  · unfold boundedInverseRate
    norm_num
  · unfold boundedInverseRate
    rw [div_self ht.ne']
    norm_num
  · intro hv
    have h1 : (1 : ℚ) ≤ v / t := by
      rw [le_div_iff₀ ht]
      linarith
    unfold boundedInverseRate
    rw [max_eq_left (by linarith), min_eq_right h1]
    ring

/-- C7 witness: the bounded-inverse-rate theorem at `v = 7`, `t = 3`
(count above threshold). -/
theorem C7_bounded_inverse_rate_witness :
    boundedInverseRate 7 3 = 1 - min (max ((7 : ℚ) / 3) 0) 1 ∧
    boundedInverseRate 0 3 = 1 ∧
    boundedInverseRate 3 3 = 0 ∧
    ((3 : ℚ) < 7 → boundedInverseRate 7 3 = 0) ∧
    0 ≤ boundedInverseRate 7 3 :=
  C7_bounded_inverse_rate 7 3 (by norm_num)

/-- C6 counterexample: when the CRF percentage columns are absent the
substituted default `0.0` does not satisfy the `pct_crfs_verified >=
1.0` / `pct_crfs_signed >= 1.0` conditions, so a subject whose CRF
source is entirely absent (all counts clean otherwise) is scored
`clean_patient = 0` — absence is not "fully clean" for those
dimensions, contrary to the claim's parenthesis. -/
theorem C6_counterexample :
    cleanPatientFlag absentPctRow = 0 ∧
    ¬ (1 ≤ absentPctRow.pct_crfs_verified.getD 0) := by
  constructor
  · norm_num [cleanPatientFlag, cleanConds, absentPctRow, cleanRow]
  · norm_num [absentPctRow, cleanRow]

/-- C6 (amended): `compute_clean_patient_flags` substitutes a default of
`0` (count columns) or `0.0` (CRF percentage columns) for every absent
driver column before evaluating the conditions, and the default
satisfies the condition for the eight count dimensions and for
`pct_crfs_overdue` — a row with all of those columns absent but full
verification/signature is clean — but the default `0.0` violates
`pct_crfs_verified >= 1.0` and `pct_crfs_signed >= 1.0`, so a subject
whose CRF percentage columns are absent always gets `clean_patient = 0`. -/
theorem C6_absent_column_defaults (r : ScoreRow) :
    cleanPatientFlag r = cleanPatientFlag (fillDriverDefaults r) ∧
    (r.pct_crfs_verified = none ∨ r.pct_crfs_signed = none →
      cleanPatientFlag r = 0) ∧
    cleanPatientFlag
      ⟨none, none, none, none, none, none, none, none, some 1, some 1, none⟩ = 1 := by
  refine ⟨rfl, ?_, by norm_num [cleanPatientFlag, cleanConds]⟩
  intro h
  rcases h with h | h
  · simp [cleanPatientFlag, cleanConds, h]
  · simp [cleanPatientFlag, cleanConds, h]

/-- C6 witness: the amended theorem applied to the row with absent
percentage columns, whose clean flag is 0. -/
theorem C6_absent_column_defaults_witness :
    cleanPatientFlag absentPctRow = cleanPatientFlag (fillDriverDefaults absentPctRow) ∧
    (absentPctRow.pct_crfs_verified = none ∨ absentPctRow.pct_crfs_signed = none →
      cleanPatientFlag absentPctRow = 0) ∧
    cleanPatientFlag
      ⟨none, none, none, none, none, none, none, none, some 1, some 1, none⟩ = 1 :=
  C6_absent_column_defaults absentPctRow

/-! ### Key-normalization step lemmas (for C8) -/

theorem lookup_nkStudyStep_ne (row : List (String × Option String)) (c : String)
    (h : c ≠ "study_id") : (nkStudyStep row).lookup c = row.lookup c := by
  unfold nkStudyStep
  split
  · rfl
  · exact lookup_append_ne row "study_id" c none h

theorem hasCol_nkStudyStep_ne (row : List (String × Option String)) (c : String)
    (h : c ≠ "study_id") : hasCol (nkStudyStep row) c = hasCol row c := by
  unfold hasCol
  rw [lookup_nkStudyStep_ne row c h]

theorem lookup_nkSiteStep_ne (r1 : List (String × Option String)) (c : String)
    (h1 : c ≠ "site_id") (h2 : ∀ a ∈ siteAliases, c ≠ a) :
    (nkSiteStep r1).lookup c = r1.lookup c := by
  unfold nkSiteStep
  split
  · rfl
  · cases hfind : siteAliases.find? (fun a => hasCol r1 a) with
    | none => rfl
    | some a =>
      exact lookup_renameCol_ne r1 a "site_id" c
        (h2 a (List.mem_of_find?_eq_some hfind)) h1

theorem hasCol_nkSiteStep_ne (r1 : List (String × Option String)) (c : String)
    (h1 : c ≠ "site_id") (h2 : ∀ a ∈ siteAliases, c ≠ a) :
    hasCol (nkSiteStep r1) c = hasCol r1 c := by
  unfold hasCol
  rw [lookup_nkSiteStep_ne r1 c h1 h2]

theorem lookup_nkSubjectStep_ne (r2 : List (String × Option String)) (c : String)
    (h1 : c ≠ "subject_id") (h2 : ∀ a ∈ subjectAliases, c ≠ a) :
    (nkSubjectStep r2).lookup c = r2.lookup c := by
  unfold nkSubjectStep
  split
  · rfl
  · cases hfind : subjectAliases.find? (fun a => hasCol r2 a) with
    | none => rfl
    | some a =>
      exact lookup_renameCol_ne r2 a "subject_id" c
        (h2 a (List.mem_of_find?_eq_some hfind)) h1

theorem hasCol_nkSubjectStep_ne (r2 : List (String × Option String)) (c : String)
    (h1 : c ≠ "subject_id") (h2 : ∀ a ∈ subjectAliases, c ≠ a) :
    hasCol (nkSubjectStep r2) c = hasCol r2 c := by
  unfold hasCol
  rw [lookup_nkSubjectStep_ne r2 c h1 h2]

theorem hasCol_codingStudyStep_study (row : List (String × Option String)) :
    hasCol (codingStudyStep row) "study_id" = true := by
  unfold codingStudyStep
  split_ifs with hA hB
  · exact hA
  · exact hasCol_renameCol_target row "study" "study_id" hB
  · exact hasCol_append_self row "study_id" (some "NA")

theorem lookup_codingStudyStep_ne (row : List (String × Option String)) (c : String)
    (h1 : c ≠ "study_id") (h2 : c ≠ "study") :
    (codingStudyStep row).lookup c = row.lookup c := by
  unfold codingStudyStep
  split_ifs
  · rfl
  · exact lookup_renameCol_ne row "study" "study_id" c h2 h1
  · exact lookup_append_ne row "study_id" c (some "NA") h1

theorem hasCol_codingStudyStep_ne (row : List (String × Option String)) (c : String)
    (h1 : c ≠ "study_id") (h2 : c ≠ "study") :
    hasCol (codingStudyStep row) c = hasCol row c := by
  unfold hasCol
  rw [lookup_codingStudyStep_ne row c h1 h2]

theorem hasCol_codingSiteStep_site (r1 : List (String × Option String)) :
    hasCol (codingSiteStep r1) "site_id" = true := by
  unfold codingSiteStep
  split_ifs with hA
  · exact hA
  · exact hasCol_append_self r1 "site_id" (some "NA")

theorem lookup_codingSiteStep_ne (r1 : List (String × Option String)) (c : String)
    (h : c ≠ "site_id") : (codingSiteStep r1).lookup c = r1.lookup c := by
  unfold codingSiteStep
  split_ifs
  · rfl
  · exact lookup_append_ne r1 "site_id" c (some "NA") h

theorem hasCol_codingSiteStep_ne (r1 : List (String × Option String)) (c : String)
    (h : c ≠ "site_id") : hasCol (codingSiteStep r1) c = hasCol r1 c := by
  unfold hasCol
  rw [lookup_codingSiteStep_ne r1 c h]

theorem lookup_codingSiteStep_absent (r1 : List (String × Option String))
    (h : hasCol r1 "site_id" = false) :
    (codingSiteStep r1).lookup "site_id" = some (some "NA") := by
  unfold codingSiteStep
  rw [if_neg (by simp [h])]
  exact lookup_append_self r1 "site_id" (some "NA") h

theorem hasCol_codingSubjectStep_subject (r2 : List (String × Option String)) :
    hasCol (codingSubjectStep r2) "subject_id" = true := by
  unfold codingSubjectStep
  split_ifs with hA hB
  · exact hA
  · exact hasCol_renameCol_target r2 "subject" "subject_id" hB
  · exact hasCol_append_self r2 "subject_id" (some "NA")

theorem lookup_codingSubjectStep_ne (r2 : List (String × Option String)) (c : String)
    (h1 : c ≠ "subject_id") (h2 : c ≠ "subject") :
    (codingSubjectStep r2).lookup c = r2.lookup c := by
  unfold codingSubjectStep
  split_ifs
  · rfl
  · exact lookup_renameCol_ne r2 "subject" "subject_id" c h2 h1
  · exact lookup_append_ne r2 "subject_id" c (some "NA") h1

theorem hasCol_codingSubjectStep_ne (r2 : List (String × Option String)) (c : String)
    (h1 : c ≠ "subject_id") (h2 : c ≠ "subject") :
    hasCol (codingSubjectStep r2) c = hasCol r2 c := by
  unfold hasCol
  rw [lookup_codingSubjectStep_ne r2 c h1 h2]

theorem hasCol_edrrStudyStep_study (row : List (String × Option String)) :
    hasCol (edrrStudyStep row) "study_id" = true := by
  unfold edrrStudyStep
  split_ifs with hA hB hC
  · exact hA
  · exact hasCol_renameCol_target row "study" "study_id" hB
  · exact hasCol_renameCol_target row "study_name" "study_id" hC
  · exact hasCol_append_self row "study_id" (some "NA")

theorem hasCol_edrrStudyStep_ne (row : List (String × Option String)) (c : String)
    (h1 : c ≠ "study_id") (h2 : c ≠ "study") (h3 : c ≠ "study_name") :
    hasCol (edrrStudyStep row) c = hasCol row c := by
  unfold hasCol edrrStudyStep
  split_ifs
  · rfl
  · rw [lookup_renameCol_ne row "study" "study_id" c h2 h1]
  · rw [lookup_renameCol_ne row "study_name" "study_id" c h3 h1]
  · rw [lookup_append_ne row "study_id" c (some "NA") h1]

theorem hasCol_edrrSiteStep_site (r1 : List (String × Option String)) :
    hasCol (edrrSiteStep r1) "site_id" = true := by
  unfold edrrSiteStep
  split_ifs with hA
  · exact hA
  · cases hfind : edrrSiteAliases.find? (fun a => hasCol r1 a) with
    | none => exact hasCol_append_self r1 "site_id" (some "NA")
    | some a => exact hasCol_renameCol_target r1 a "site_id" (List.find?_some hfind)

theorem hasCol_edrrSiteStep_ne (r1 : List (String × Option String)) (c : String)
    (h1 : c ≠ "site_id") (h2 : ∀ a ∈ edrrSiteAliases, c ≠ a) :
    hasCol (edrrSiteStep r1) c = hasCol r1 c := by
  unfold hasCol edrrSiteStep
  split_ifs
  · rfl
  · cases hfind : edrrSiteAliases.find? (fun a => hasCol r1 a) with
    | none => rw [lookup_append_ne r1 "site_id" c (some "NA") h1]
    | some a =>
      rw [lookup_renameCol_ne r1 a "site_id" c
        (h2 a (List.mem_of_find?_eq_some hfind)) h1]

theorem hasCol_edrrSubjectStep_subject (r2 : List (String × Option String)) :
    hasCol (edrrSubjectStep r2) "subject_id" = true := by
  unfold edrrSubjectStep
  split_ifs with hA
  · exact hA
  · cases hfind : edrrSubjectAliases.find? (fun a => hasCol r2 a) with
    | none => exact hasCol_append_self r2 "subject_id" (some "NA")
    | some a => exact hasCol_renameCol_target r2 a "subject_id" (List.find?_some hfind)

theorem hasCol_edrrSubjectStep_ne (r2 : List (String × Option String)) (c : String)
    (h1 : c ≠ "subject_id") (h2 : ∀ a ∈ edrrSubjectAliases, c ≠ a) :
    hasCol (edrrSubjectStep r2) c = hasCol r2 c := by
  unfold hasCol edrrSubjectStep
  split_ifs
  · rfl
  · cases hfind : edrrSubjectAliases.find? (fun a => hasCol r2 a) with
    | none => rw [lookup_append_ne r2 "subject_id" c (some "NA") h1]
    | some a =>
      rw [lookup_renameCol_ne r2 a "subject_id" c
        (h2 a (List.mem_of_find?_eq_some hfind)) h1]

/-- C8 counterexample: `normalize_keys` (used for the visit, missing-page,
lab and adverse-event sources) does not substitute `"NA"` for a missing
site component — on a table with `study_id` and `subject_id` but no
`site_id` alias at all, the normalized table still has no `site_id`
column, contradicting "for every source table ... the sentinel string
NA is substituted for the missing component rather than the column
being left absent". -/
theorem C8_counterexample :
    hasCol (normalizeKeys [("study_id", some "1"), ("subject_id", some "P001")])
      "site_id" = false := by
  decide

/-- C8 (amended): the `"NA"`-sentinel guarantee holds for the coding and
discrepancy (EDRR) normalization paths — `_ensure_keys_for_coding` and
`aggregate_edrr` always leave all three subject-key columns populated,
inserting the sentinel `"NA"` (e.g. for a missing site) — but not for
`normalize_keys`, which leaves `site_id` absent when no alias is
present and fills a missing `study_id` with NaN rather than `"NA"`. -/
theorem C8_key_population :
    (∀ row : List (String × Option String),
      hasCol (ensureKeysForCoding row) "study_id" = true ∧
      hasCol (ensureKeysForCoding row) "site_id" = true ∧
      hasCol (ensureKeysForCoding row) "subject_id" = true) ∧
    (∀ row : List (String × Option String),
      hasCol (edrrEnsureKeys row) "study_id" = true ∧
      hasCol (edrrEnsureKeys row) "site_id" = true ∧
      hasCol (edrrEnsureKeys row) "subject_id" = true) ∧
    (∀ row : List (String × Option String), hasCol row "site_id" = false →
      (ensureKeysForCoding row).lookup "site_id" = some (some "NA")) ∧
    (∀ row : List (String × Option String),
      hasCol row "site_id" = false →
      (∀ a ∈ siteAliases, hasCol row a = false) →
      hasCol (normalizeKeys row) "site_id" = false) ∧
    (∀ row : List (String × Option String), hasCol row "study_id" = false →
      (normalizeKeys row).lookup "study_id" = some none) := by
  refine ⟨?_, ?_, ?_, ?_, ?_⟩
  · intro row
    unfold ensureKeysForCoding
    refine ⟨?_, ?_, ?_⟩
    · rw [hasCol_codingSubjectStep_ne _ _ (by decide) (by decide),
        hasCol_codingSiteStep_ne _ _ (by decide)]
      exact hasCol_codingStudyStep_study row
    · rw [hasCol_codingSubjectStep_ne _ _ (by decide) (by decide)]
      exact hasCol_codingSiteStep_site _
    · exact hasCol_codingSubjectStep_subject _
  · intro row
    unfold edrrEnsureKeys
    refine ⟨?_, ?_, ?_⟩
    · rw [hasCol_edrrSubjectStep_ne _ _ (by decide) (by decide),
        hasCol_edrrSiteStep_ne _ _ (by decide) (by decide)]
      exact hasCol_edrrStudyStep_study row
    · rw [hasCol_edrrSubjectStep_ne _ _ (by decide) (by decide)]
      exact hasCol_edrrSiteStep_site _
    · exact hasCol_edrrSubjectStep_subject _
  · intro row h
    unfold ensureKeysForCoding
    have h1 : hasCol (codingStudyStep row) "site_id" = false := by
      rw [hasCol_codingStudyStep_ne row _ (by decide) (by decide)]
      exact h
    rw [lookup_codingSubjectStep_ne _ _ (by decide) (by decide)]
    exact lookup_codingSiteStep_absent _ h1
  · intro row h hal
    unfold normalizeKeys
    have h1 : hasCol (nkStudyStep row) "site_id" = false := by
      rw [hasCol_nkStudyStep_ne row _ (by decide)]
      exact h
    have hal1 : ∀ a ∈ siteAliases, hasCol (nkStudyStep row) a = false := by
      intro a ha
      have hall : ∀ x ∈ siteAliases, x ≠ "study_id" := by decide
      have hne : a ≠ "study_id" := hall a ha
      rw [hasCol_nkStudyStep_ne row a hne]
      exact hal a ha
    have hfind : siteAliases.find? (fun a => hasCol (nkStudyStep row) a) = none :=
      List.find?_eq_none.mpr (fun a ha => by simp [hal1 a ha])
    have h2 : nkSiteStep (nkStudyStep row) = nkStudyStep row := by
      unfold nkSiteStep
      rw [if_neg (by simp [h1]), hfind]
    rw [h2, hasCol_nkSubjectStep_ne _ _ (by decide) (by decide)]
    exact h1
  · intro row h
    unfold normalizeKeys
    have h1 : (nkStudyStep row).lookup "study_id" = some none := by
      unfold nkStudyStep
      rw [if_neg (by simp [h])]
      exact lookup_append_self row "study_id" none h
    rw [lookup_nkSubjectStep_ne _ _ (by decide) (by decide),
      lookup_nkSiteStep_ne _ _ (by decide) (by decide)]
    exact h1

/-- C8 witness: the amended theorem applied to concrete tables — a
coding table with `study`/`subject` columns only gets all three keys
with `site_id = "NA"`, while `normalize_keys` on a table without any
site alias leaves `site_id` absent. -/
theorem C8_key_population_witness :
    (hasCol (ensureKeysForCoding [("study", some "S2"), ("subject", some "P9")])
        "site_id" = true) ∧
    ((ensureKeysForCoding [("study", some "S2"), ("subject", some "P9")]).lookup
        "site_id" = some (some "NA")) ∧
    (hasCol (normalizeKeys [("study_id", some "S2"), ("subject", some "P9")])
        "site_id" = false) ∧
    ((normalizeKeys [("subject", some "P9")]).lookup "study_id" = some none) :=
  ⟨(C8_key_population.1 [("study", some "S2"), ("subject", some "P9")]).2.1,
   C8_key_population.2.2.1 [("study", some "S2"), ("subject", some "P9")] (by decide),
   C8_key_population.2.2.2.1 [("study_id", some "S2"), ("subject", some "P9")]
     (by decide) (by decide),
   C8_key_population.2.2.2.2 [("subject", some "P9")] (by decide)⟩

/-! ### CPID query-column lemmas (for C10) -/

theorem renameCpidCol_eq_open (d : String)
    (h : renameCpidCol d = "open_queries") : d = "open_queries" := by
  unfold renameCpidCol at h
  split_ifs at h <;> simp_all

theorem renameCpidCol_eq_total (d : String)
    (h : renameCpidCol d = "n_total_queries") :
    d = "total_queries" ∨ d = "n_total_queries" := by
  unfold renameCpidCol at h
  split_ifs at h <;> simp_all

theorem hasCol_renamed_open (row : List (String × ℚ))
    (h : "open_queries" ∉ row.map Prod.fst) :
    hasCol (row.map (fun p => (renameCpidCol p.1, p.2))) "open_queries" = false := by
  cases hcc : hasCol (row.map (fun p => (renameCpidCol p.1, p.2))) "open_queries" with
  | false => rfl
  | true =>
    exfalso
    rw [hasCol_iff_mem, List.map_map] at hcc
    obtain ⟨p, hp, hpe⟩ := List.mem_map.mp hcc
    exact h (List.mem_map.mpr ⟨p, hp, renameCpidCol_eq_open p.1 hpe⟩)

theorem hasCol_renamed_total (row : List (String × ℚ))
    (h1 : "total_queries" ∉ row.map Prod.fst)
    (h2 : "n_total_queries" ∉ row.map Prod.fst) :
    hasCol (row.map (fun p => (renameCpidCol p.1, p.2))) "n_total_queries" = false := by
  cases hcc : hasCol (row.map (fun p => (renameCpidCol p.1, p.2))) "n_total_queries" with
  | false => rfl
  | true =>
    exfalso
    rw [hasCol_iff_mem, List.map_map] at hcc
    obtain ⟨p, hp, hpe⟩ := List.mem_map.mp hcc
    rcases renameCpidCol_eq_total p.1 hpe with he | he
    · exact h1 (List.mem_map.mpr ⟨p, hp, he⟩)
    · exact h2 (List.mem_map.mpr ⟨p, hp, he⟩)

/-- C10: when the primary table has no `open_queries` column,
`engineer_from_cpid` sets `n_open_queries` equal to `n_total_queries`,
which — when no explicit total column exists either — is the row sum of
every column whose name ends in `_queries` after the query renames (the
sum over no such columns being 0).  Answered or closed queries are
therefore counted as open. -/
theorem C10_open_queries (row : List (String × ℚ))
    (hopen : "open_queries" ∉ row.map Prod.fst)
    (htq : "total_queries" ∉ row.map Prod.fst)
    (hntq : "n_total_queries" ∉ row.map Prod.fst) :
    (engineerQueryCols row).lookup "n_open_queries" =
      some ((((row.map (fun p => (renameCpidCol p.1, p.2))).filter
        (fun p => endsWithQueries p.1)).map Prod.snd).sum) := by
  have h1 := hasCol_renamed_open row hopen
  have h2 := hasCol_renamed_total row htq hntq
  unfold engineerQueryCols
  set r1 := row.map (fun p => (renameCpidCol p.1, p.2)) with hr1
  have hTotal : engineerTotalStep r1 =
      setCol r1 "n_total_queries"
        (((r1.filter (fun p => endsWithQueries p.1)).map Prod.snd).sum) := by
    unfold engineerTotalStep
    rw [if_neg (by simp [h2])]
  rw [hTotal]
  have hlopen : (setCol r1 "n_total_queries"
      (((r1.filter (fun p => endsWithQueries p.1)).map Prod.snd).sum)).lookup
        "open_queries" = none := by
    rw [lookup_setCol_ne _ _ _ _ (by decide)]
    unfold hasCol at h1
    exact Option.not_isSome_iff_eq_none.mp (by simp [h1])
  unfold engineerOpenStep
  rw [hlopen, lookup_setCol_self, lookup_setCol_self]
  rfl

/-- C10 witness: a table with only per-category query columns and no
open/total columns — `n_open_queries` is the row total of the two
`_queries` columns. -/
theorem C10_open_queries_witness :
    (engineerQueryCols [("dm_queries", (2 : ℚ)), ("clinical_queries", 3)]).lookup
        "n_open_queries" =
      some (((([("dm_queries", (2 : ℚ)), ("clinical_queries", 3)].map
        (fun p => (renameCpidCol p.1, p.2))).filter
        (fun p => endsWithQueries p.1)).map Prod.snd).sum) :=
  C10_open_queries [("dm_queries", (2 : ℚ)), ("clinical_queries", 3)]
    (by decide) (by decide) (by decide)

/-! ### SAE sheet-selection lemmas (for C9) -/

theorem saeSheetScan_some_some (l : List String) (d s : String) :
    saeSheetScan l (some d) (some s) = (some d, some s) := by
  induction l with
  | nil => rfl
  | cons a t ih => simp [saeSheetScan, ih]

theorem saeSheetScan_some_none (l : List String) (d : String) :
    saeSheetScan l (some d) none =
      (some d, (l.filter (fun s => markerIn s "safety")).head?) := by
  induction l with
  | nil => rfl
  | cons a t ih =>
    by_cases h : markerIn a "safety" = true
    · simp [saeSheetScan, h, saeSheetScan_some_some, List.filter_cons]
    · have h' : markerIn a "safety" = false := by simpa using h
      simp [saeSheetScan, h', ih, List.filter_cons]

theorem saeSheetScan_none_some (l : List String) (s : String) :
    saeSheetScan l none (some s) =
      (l.find? (fun x => markerIn x "dm"), some s) := by
  induction l with
  | nil => rfl
  | cons a t ih =>
    by_cases h : markerIn a "dm" = true
    · simp [saeSheetScan, h, saeSheetScan_some_some, List.find?_cons]
    · have h' : markerIn a "dm" = false := by simpa using h
      simp [saeSheetScan, h', ih, List.find?_cons]

theorem saeSheetScan_none_none (l : List String) (h : l.Nodup) :
    saeSheetScan l none none =
      (l.find? (fun x => markerIn x "dm"),
       (l.filter (fun s =>
         markerIn s "safety" &&
           !(l.find? (fun x => markerIn x "dm") == some s))).head?) := by
  induction l with
  | nil => rfl
  | cons a t ih =>
    obtain ⟨hna, hnt⟩ := List.nodup_cons.mp h
    by_cases hdm : markerIn a "dm" = true
    · have hfind : (a :: t).find? (fun x => markerIn x "dm") = some a := by
        simp [List.find?_cons, hdm]
      rw [show saeSheetScan (a :: t) none none = saeSheetScan t (some a) none from by
        simp [saeSheetScan, hdm]]
      rw [saeSheetScan_some_none, hfind]
      congr 1
      rw [List.filter_cons]
      have hqa : (markerIn a "safety" && !((some a : Option String) == some a)) = false := by
        simp
      rw [hqa]
      simp only [if_neg (by simp : ¬ false = true)]
      have hcongr : ∀ x ∈ t,
          (markerIn x "safety") =
            (markerIn x "safety" && !((some a : Option String) == some x)) := by
        intro x hx
        have hax : a ≠ x := fun he => hna (he ▸ hx)
        simp [hax]
      rw [List.filter_congr hcongr]
    · have hdm' : markerIn a "dm" = false := by simpa using hdm
      have hfind : (a :: t).find? (fun x => markerIn x "dm") =
          t.find? (fun x => markerIn x "dm") := by
        simp [List.find?_cons, hdm']
      by_cases hsf : markerIn a "safety" = true
      · rw [show saeSheetScan (a :: t) none none = saeSheetScan t none (some a) from by
          simp [saeSheetScan, hdm', hsf]]
        rw [saeSheetScan_none_some, hfind]
        congr 1
        rw [List.filter_cons]
        have hne : t.find? (fun x => markerIn x "dm") ≠ some a := by
          intro hcon
          exact hna (List.mem_of_find?_eq_some hcon)
        have hqa : (markerIn a "safety" &&
            !(t.find? (fun x => markerIn x "dm") == some a)) = true := by
          rw [hsf]
          simp [hne]
        rw [hqa]
        simp
      · have hsf' : markerIn a "safety" = false := by simpa using hsf
        rw [show saeSheetScan (a :: t) none none = saeSheetScan t none none from by
          simp [saeSheetScan, hdm', hsf']]
        rw [ih hnt, hfind]
        congr 1
        rw [List.filter_cons]
        have hqa : (markerIn a "safety" &&
            !(t.find? (fun x => markerIn x "dm") == some a)) = false := by
          rw [hsf']
          rfl
        rw [hqa]
        simp only [if_neg (by simp : ¬ false = true)]

/-- C9 counterexample: on a workbook whose single sheet is named
"dm safety", the safety marker is present in the sheet list, yet
`read_sae` selects no safety sheet at all (the `elif` skipped the sheet
because it had just been claimed as the DM sheet, and there is no
second sheet to fall back to) — the claim's safety-selection rule would
pick "dm safety". -/
theorem C9_counterexample :
    readSaeSelect ["dm safety"] = (some "dm safety", none) ∧
    markerIn "dm safety" "safety" = true ∧
    safetyChoiceClaimed ["dm safety"] = some "dm safety" := by
  refine ⟨by decide, by decide, by decide⟩

/-- C9 (amended): for every duplicate-free list of sheet names,
`read_sae` selects as DM sheet the first sheet containing the DM marker
(falling back to the first sheet), and as safety sheet the first sheet
containing the safety marker other than the marker-selected DM sheet
(falling back to the second sheet when present); the selection is a
total function and never raises. -/
theorem C9_sheet_selection (sheets : List String) (h : sheets.Nodup) :
    readSaeSelect sheets = (dmChoiceSpec sheets, safetyChoiceAmended sheets) := by
  unfold readSaeSelect dmChoiceSpec safetyChoiceAmended
  rw [saeSheetScan_none_none sheets h]
  have hfb : (if sheets.length > 1 then sheets[1]? else none) = sheets[1]? := by
    by_cases hlen : sheets.length > 1
    · rw [if_pos hlen]
    · rw [if_neg hlen, List.getElem?_eq_none (by omega)]
  rw [hfb]

/-- C9 witness: the amended selection theorem on a two-sheet workbook
with regular names. -/
theorem C9_sheet_selection_witness :
    readSaeSelect ["dm", "safety2"] =
      (dmChoiceSpec ["dm", "safety2"], safetyChoiceAmended ["dm", "safety2"]) :=
  C9_sheet_selection ["dm", "safety2"] (by decide)

/-! ### Snapshot-builder lemmas (for C4 and C5) -/

theorem groupByKey_keys {α β : Type} (keyOf : α → SubjectKey) (reduce : List α → β)
    (rows : List α) :
    (groupByKey keyOf reduce rows).map Prod.fst = (rows.map keyOf).dedup := by
  unfold groupByKey
  rw [List.map_map,
    show (Prod.fst ∘ fun k =>
      (k, reduce (rows.filter (fun r => decide (keyOf r = k))))) = id from
      funext fun k => rfl,
    List.map_id]

theorem groupByKey_nodupKeys {α β : Type} (keyOf : α → SubjectKey)
    (reduce : List α → β) (rows : List α) :
    ((groupByKey keyOf reduce rows).map Prod.fst).Nodup := by
  rw [groupByKey_keys]
  exact List.nodup_dedup _

theorem nodupKeys_filter_le_one {M : Type} (feat : List (SubjectKey × M))
    (h : (feat.map Prod.fst).Nodup) (k : SubjectKey) :
    (feat.filter (fun p => decide (p.1 = k))).length ≤ 1 := by
  induction feat with
  | nil => simp
  | cons p t ih =>
    rw [List.map_cons, List.nodup_cons] at h
    rw [List.filter_cons]
    by_cases hk : p.1 = k
    · rw [if_pos (by simpa using hk)]
      have hnil : t.filter (fun q => decide (q.1 = k)) = [] := by
        rw [List.filter_eq_nil_iff]
        intro q hq
        simp only [decide_eq_true_eq]
        intro hqk
        have hmem : p.1 ∈ t.map Prod.fst := by
          rw [hk, ← hqk]
          exact List.mem_map_of_mem Prod.fst hq
        exact h.1 hmem
      rw [hnil]
      simp
    · rw [if_neg (by simpa using hk)]
      exact ih h.2

theorem mergeStep_skip {M : Type} (rows : List SnapRow) (feat : List (SubjectKey × M))
    (z : M) (set : SnapRow → Option M → SnapRow) (h : feat = []) :
    mergeStep rows feat z set = rows := by
  unfold mergeStep
  rw [if_pos (by simp [h])]

theorem mergeStep_length {M : Type} (rows : List SnapRow) (feat : List (SubjectKey × M))
    (z : M) (set : SnapRow → Option M → SnapRow)
    (h : ∀ k, (feat.filter (fun p => decide (p.1 = k))).length ≤ 1) :
    (mergeStep rows feat z set).length = rows.length := by
  unfold mergeStep
  by_cases hfeat : feat.isEmpty
  · rw [if_pos hfeat]
  · rw [if_neg hfeat]
    induction rows with
    | nil => rfl
    | cons r t ih =>
      simp only [List.flatMap_cons, List.length_append, List.length_cons]
      rw [ih]
      cases hm : feat.filter (fun p => decide (p.1 = r.base.key)) with
      | nil =>
        simp only [List.length_singleton]
        omega
      | cons m ms =>
        have hlen := h r.base.key
        rw [hm] at hlen
        simp only [List.length_cons] at hlen
        simp only [List.length_map, List.length_cons]
        omega

theorem mergeStep_mem_cases {M : Type} (rows : List SnapRow)
    (feat : List (SubjectKey × M)) (z : M) (set : SnapRow → Option M → SnapRow)
    (x : SnapRow) (h : x ∈ mergeStep rows feat z set) :
    (feat = [] ∧ x ∈ rows) ∨ (∃ r ∈ rows, ∃ m : M, x = set r (some m)) := by
  unfold mergeStep at h
  by_cases hfeat : feat.isEmpty
  · rw [if_pos hfeat] at h
    exact Or.inl ⟨List.isEmpty_iff.mp hfeat, h⟩
  · rw [if_neg hfeat] at h
    rw [List.mem_flatMap] at h
    obtain ⟨r, hr, hmem⟩ := h
    right
    refine ⟨r, hr, ?_⟩
    revert hmem
    cases hm : feat.filter (fun p => decide (p.1 = r.base.key)) with
    | nil =>
      intro hmem
      rw [List.mem_singleton] at hmem
      exact ⟨z, hmem⟩
    | cons m ms =>
      intro hmem
      rw [List.mem_map] at hmem
      obtain ⟨p, _, he⟩ := hmem
      exact ⟨p.2, he.symm⟩

theorem mergeStep_preserve {M : Type} (rows : List SnapRow)
    (feat : List (SubjectKey × M)) (z : M) (set : SnapRow → Option M → SnapRow)
    (P : SnapRow → Prop) (hset : ∀ r m, P r → P (set r m))
    (hrows : ∀ r ∈ rows, P r) :
    ∀ x ∈ mergeStep rows feat z set, P x := by
  intro x hx
  rcases mergeStep_mem_cases rows feat z set x hx with ⟨_, hm⟩ | ⟨r, hr, m, he⟩
  · exact hrows x hm
  · rw [he]
    exact hset r (some m) (hrows r hr)

theorem mergeStep_establish {M : Type} (rows : List SnapRow)
    (feat : List (SubjectKey × M)) (z : M) (set : SnapRow → Option M → SnapRow)
    (P : SnapRow → Prop) (hne : feat ≠ [])
    (hset : ∀ r (m : M), P (set r (some m))) :
    ∀ x ∈ mergeStep rows feat z set, P x := by
  intro x hx
  rcases mergeStep_mem_cases rows feat z set x hx with ⟨hfeat, _⟩ | ⟨r, _, m, he⟩
  · exact absurd hfeat hne
  · rw [he]
    exact hset r m

theorem aggregateVisits_nodupKeys (v : List VisitRow) :
    ((aggregateVisits v).map Prod.fst).Nodup := by
  unfold aggregateVisits
  split
  · simp
  · exact groupByKey_nodupKeys _ _ _

theorem aggregateMissingPages_nodupKeys (p : List PageRow) :
    ((aggregateMissingPages p).map Prod.fst).Nodup := by
  unfold aggregateMissingPages
  split
  · simp
  · exact groupByKey_nodupKeys _ _ _

theorem aggregateLabIssues_nodupKeys (l : List LabRow) :
    ((aggregateLabIssues l).map Prod.fst).Nodup := by
  unfold aggregateLabIssues
  split
  · simp
  · exact groupByKey_nodupKeys _ _ _

theorem aggregateEdrr_nodupKeys (e : List EdrrRow) :
    ((aggregateEdrr e).map Prod.fst).Nodup := by
  unfold aggregateEdrr
  split
  · simp
  · exact groupByKey_nodupKeys _ _ _

theorem outerMerge_nodupKeys {β γ : Type} (a : List (SubjectKey × β))
    (b : List (SubjectKey × γ)) (ha : (a.map Prod.fst).Nodup)
    (hb : (b.map Prod.fst).Nodup) :
    ((outerMerge a b).map Prod.fst).Nodup := by
  unfold outerMerge
  have hfa : (Prod.fst ∘ fun p : SubjectKey × β =>
      (p.1, ((some p.2 : Option β), List.lookup p.1 b))) = Prod.fst :=
    funext fun p => rfl
  have hfb : (Prod.fst ∘ fun q : SubjectKey × γ =>
      (q.1, ((none : Option β), some q.2))) = Prod.fst :=
    funext fun q => rfl
  rw [List.map_append, List.map_map, List.map_map, hfa, hfb]
  apply List.Nodup.append
  · exact ha
  · exact List.Nodup.sublist (List.Sublist.map _ (List.filter_sublist b)) hb
  · intro k hk1 hk2
    rw [List.mem_map] at hk2
    obtain ⟨q, hq, rfl⟩ := hk2
    rw [List.mem_filter] at hq
    have hq2 := hq.2
    rw [decide_eq_true_eq] at hq2
    exact hq2 hk1

theorem aggregateSae_nodupKeys (dm safety : List SaeRow) :
    ((aggregateSae dm safety).map Prod.fst).Nodup := by
  unfold aggregateSae
  split_ifs
  · simp
  · rw [List.map_map,
      show (Prod.fst ∘ fun p : SubjectKey × (ℚ × ℚ) =>
        (p.1, (⟨p.2.1, p.2.2, 0, 0, p.2.2 + 0⟩ : SaeMetrics))) = Prod.fst from
        funext fun p => rfl]
    exact groupByKey_nodupKeys _ _ _
  · rw [List.map_map,
      show (Prod.fst ∘ fun p : SubjectKey × (ℚ × ℚ) =>
        (p.1, (⟨0, 0, p.2.1, p.2.2, 0 + p.2.2⟩ : SaeMetrics))) = Prod.fst from
        funext fun p => rfl]
    exact groupByKey_nodupKeys _ _ _
  · rw [List.map_map,
      show (Prod.fst ∘ fun p : SubjectKey × (Option (ℚ × ℚ) × Option (ℚ × ℚ)) =>
        (p.1, (⟨(p.2.1.getD (0, 0)).1, (p.2.1.getD (0, 0)).2,
          (p.2.2.getD (0, 0)).1, (p.2.2.getD (0, 0)).2,
          (p.2.1.getD (0, 0)).2 + (p.2.2.getD (0, 0)).2⟩ : SaeMetrics))) = Prod.fst from
        funext fun p => rfl]
    exact outerMerge_nodupKeys _ _ (groupByKey_nodupKeys _ _ _)
      (groupByKey_nodupKeys _ _ _)

theorem aggregateCoding_nodupKeys (medra whodd : List CodingRow) :
    ((aggregateCoding medra whodd).map Prod.fst).Nodup := by
  unfold aggregateCoding
  split_ifs
  · simp
  · rw [List.map_map,
      show (Prod.fst ∘ fun p : SubjectKey × (ℚ × ℚ × ℚ) =>
        (p.1, (⟨p.2.1, p.2.2.1, p.2.2.2, 0, 0, 0, p.2.2.1 + 0, p.2.2.2 + 0⟩ :
          CodingMetrics))) = Prod.fst from funext fun p => rfl]
    exact groupByKey_nodupKeys _ _ _
  · rw [List.map_map,
      show (Prod.fst ∘ fun p : SubjectKey × (ℚ × ℚ × ℚ) =>
        (p.1, (⟨0, 0, 0, p.2.1, p.2.2.1, p.2.2.2, 0 + p.2.2.1, 0 + p.2.2.2⟩ :
          CodingMetrics))) = Prod.fst from funext fun p => rfl]
    exact groupByKey_nodupKeys _ _ _
  · rw [List.map_map,
      show (Prod.fst ∘ fun p : SubjectKey × (Option (ℚ × ℚ × ℚ) × Option (ℚ × ℚ × ℚ)) =>
        (p.1, (⟨(p.2.1.getD (0, 0, 0)).1, (p.2.1.getD (0, 0, 0)).2.1,
          (p.2.1.getD (0, 0, 0)).2.2,
          (p.2.2.getD (0, 0, 0)).1, (p.2.2.getD (0, 0, 0)).2.1,
          (p.2.2.getD (0, 0, 0)).2.2,
          (p.2.1.getD (0, 0, 0)).2.1 + (p.2.2.getD (0, 0, 0)).2.1,
          (p.2.1.getD (0, 0, 0)).2.2 + (p.2.2.getD (0, 0, 0)).2.2⟩ :
          CodingMetrics))) = Prod.fst from funext fun p => rfl]
    exact outerMerge_nodupKeys _ _ (groupByKey_nodupKeys _ _ _)
      (groupByKey_nodupKeys _ _ _)

/-- C4: for every primary CPID table and every combination of supplied
or absent optional sources, the snapshot built by
`build_subject_snapshot` has exactly one row per CPID row (each
left-outer join on the subject key neither adds nor removes rows,
because every aggregate has duplicate-free keys), and every snapshot
row's key comes from the CPID population — a key present only in an
aggregate never appears. -/
theorem C4_snapshot_rowcount (cpid : List CpidRow) (visits : List VisitRow)
    (pages : List PageRow) (lab : List LabRow) (saeDm saeSafety : List SaeRow)
    (medra whodd : List CodingRow) (edrr : List EdrrRow) :
    (buildSubjectSnapshot cpid visits pages lab saeDm saeSafety medra whodd edrr).length
        = cpid.length ∧
    ∀ x ∈ buildSubjectSnapshot cpid visits pages lab saeDm saeSafety medra whodd edrr,
      x.base.key ∈ cpid.map CpidRow.key := by
  constructor
  · unfold buildSubjectSnapshot snapStage5 snapStage4 snapStage3 snapStage2
      snapStage1 snapBase
    rw [mergeStep_length _ _ _ _
        (nodupKeys_filter_le_one _ (aggregateEdrr_nodupKeys edrr)),
      mergeStep_length _ _ _ _
        (nodupKeys_filter_le_one _ (aggregateCoding_nodupKeys medra whodd)),
      mergeStep_length _ _ _ _
        (nodupKeys_filter_le_one _ (aggregateSae_nodupKeys saeDm saeSafety)),
      mergeStep_length _ _ _ _
        (nodupKeys_filter_le_one _ (aggregateLabIssues_nodupKeys lab)),
      mergeStep_length _ _ _ _
        (nodupKeys_filter_le_one _ (aggregateMissingPages_nodupKeys pages)),
      mergeStep_length _ _ _ _
        (nodupKeys_filter_le_one _ (aggregateVisits_nodupKeys visits)),
      List.length_map]
    unfold engineerFromCpid
    rw [List.length_map]
  · intro x hx
    have h0 : ∀ r ∈ snapBase cpid, r.base.key ∈ cpid.map CpidRow.key := by
      intro r hr
      unfold snapBase at hr
      rw [List.mem_map] at hr
      obtain ⟨e, he, rfl⟩ := hr
      unfold engineerFromCpid at he
      rw [List.mem_map] at he
      obtain ⟨c, hc, rfl⟩ := he
      show CpidRow.key c ∈ cpid.map CpidRow.key
      exact List.mem_map_of_mem CpidRow.key hc
    have h1 : ∀ r ∈ snapStage1 cpid visits, r.base.key ∈ cpid.map CpidRow.key :=
      mergeStep_preserve (snapBase cpid) (aggregateVisits visits) (0, 0) setVisits
        (fun r => r.base.key ∈ cpid.map CpidRow.key) (fun r m hp => hp) h0
    have h2 : ∀ r ∈ snapStage2 cpid visits pages,
        r.base.key ∈ cpid.map CpidRow.key :=
      mergeStep_preserve (snapStage1 cpid visits) (aggregateMissingPages pages)
        (0, 0) setPages (fun r => r.base.key ∈ cpid.map CpidRow.key)
        (fun r m hp => hp) h1
    have h3 : ∀ r ∈ snapStage3 cpid visits pages lab,
        r.base.key ∈ cpid.map CpidRow.key :=
      mergeStep_preserve (snapStage2 cpid visits pages) (aggregateLabIssues lab)
        0 setLab (fun r => r.base.key ∈ cpid.map CpidRow.key)
        (fun r m hp => hp) h2
    have h4 : ∀ r ∈ snapStage4 cpid visits pages lab saeDm saeSafety,
        r.base.key ∈ cpid.map CpidRow.key :=
      mergeStep_preserve (snapStage3 cpid visits pages lab)
        (aggregateSae saeDm saeSafety) ⟨0, 0, 0, 0, 0⟩ setSae
        (fun r => r.base.key ∈ cpid.map CpidRow.key) (fun r m hp => hp) h3
    have h5 : ∀ r ∈ snapStage5 cpid visits pages lab saeDm saeSafety medra whodd,
        r.base.key ∈ cpid.map CpidRow.key :=
      mergeStep_preserve (snapStage4 cpid visits pages lab saeDm saeSafety)
        (aggregateCoding medra whodd) ⟨0, 0, 0, 0, 0, 0, 0, 0⟩ setCoding
        (fun r => r.base.key ∈ cpid.map CpidRow.key) (fun r m hp => hp) h4
    have h6 : ∀ r ∈ buildSubjectSnapshot cpid visits pages lab saeDm saeSafety
        medra whodd edrr, r.base.key ∈ cpid.map CpidRow.key :=
      mergeStep_preserve (snapStage5 cpid visits pages lab saeDm saeSafety medra whodd)
        (aggregateEdrr edrr) 0 setEdrr
        (fun r => r.base.key ∈ cpid.map CpidRow.key) (fun r m hp => hp) h5
    exact h6 x hx

/-- C4 witness: a one-subject CPID table with every optional source
absent builds a one-row snapshot whose key is the CPID key. -/
theorem C4_snapshot_rowcount_witness :
    (buildSubjectSnapshot [⟨("1", "A", "P1"), []⟩] [] [] [] [] [] [] [] []).length
        = 1 ∧
    (snapInit ⟨("1", "A", "P1"), engineerQueryCols []⟩).base.key ∈
      ([⟨("1", "A", "P1"), []⟩] : List CpidRow).map CpidRow.key :=
  ⟨(C4_snapshot_rowcount [⟨("1", "A", "P1"), []⟩] [] [] [] [] [] [] [] []).1,
   (C4_snapshot_rowcount [⟨("1", "A", "P1"), []⟩] [] [] [] [] [] [] [] []).2
     (snapInit ⟨("1", "A", "P1"), engineerQueryCols []⟩)
     (List.mem_singleton.mpr rfl)⟩

theorem snapshot_visits_col (cpid : List CpidRow) (visits : List VisitRow)
    (pages : List PageRow) (lab : List LabRow) (saeDm saeSafety : List SaeRow)
    (medra whodd : List CodingRow) (edrr : List EdrrRow) :
    ∀ x ∈ buildSubjectSnapshot cpid visits pages lab saeDm saeSafety medra whodd edrr,
      (x.visits = none ↔ aggregateVisits visits = []) := by
  intro x hx
  by_cases hv : aggregateVisits visits = []
  · have h0 : ∀ r ∈ snapBase cpid, r.visits = none := by
      intro r hr
      unfold snapBase at hr
      rw [List.mem_map] at hr
      obtain ⟨e, _, rfl⟩ := hr
      rfl
    have h1 : ∀ r ∈ snapStage1 cpid visits, r.visits = none := by
      have hskip : snapStage1 cpid visits = snapBase cpid := mergeStep_skip _ _ _ _ hv
      rw [hskip]
      exact h0
    have h2 : ∀ r ∈ snapStage2 cpid visits pages, r.visits = none :=
      mergeStep_preserve (snapStage1 cpid visits) (aggregateMissingPages pages) (0, 0) setPages _
        (fun r m hp => hp) h1
    have h3 : ∀ r ∈ snapStage3 cpid visits pages lab, r.visits = none :=
      mergeStep_preserve (snapStage2 cpid visits pages) (aggregateLabIssues lab) 0 setLab _
        (fun r m hp => hp) h2
    have h4 : ∀ r ∈ snapStage4 cpid visits pages lab saeDm saeSafety, r.visits = none :=
      mergeStep_preserve (snapStage3 cpid visits pages lab) (aggregateSae saeDm saeSafety) ⟨0, 0, 0, 0, 0⟩ setSae _
        (fun r m hp => hp) h3
    have h5 : ∀ r ∈ snapStage5 cpid visits pages lab saeDm saeSafety medra whodd, r.visits = none :=
      mergeStep_preserve (snapStage4 cpid visits pages lab saeDm saeSafety) (aggregateCoding medra whodd) ⟨0, 0, 0, 0, 0, 0, 0, 0⟩ setCoding _
        (fun r m hp => hp) h4
    have h6 : ∀ r ∈ buildSubjectSnapshot cpid visits pages lab saeDm saeSafety medra whodd edrr, r.visits = none :=
      mergeStep_preserve (snapStage5 cpid visits pages lab saeDm saeSafety medra whodd) (aggregateEdrr edrr) 0 setEdrr _
        (fun r m hp => hp) h5
    simp [h6 x hx, hv]
  · have h1 : ∀ r ∈ snapStage1 cpid visits, ∃ m, r.visits = some m :=
      mergeStep_establish (snapBase cpid) (aggregateVisits visits) (0, 0) setVisits _ hv
        (fun r m => ⟨m, rfl⟩)
    have h2 : ∀ r ∈ snapStage2 cpid visits pages, ∃ m, r.visits = some m :=
      mergeStep_preserve (snapStage1 cpid visits) (aggregateMissingPages pages) (0, 0) setPages _
        (fun r m hp => hp) h1
    have h3 : ∀ r ∈ snapStage3 cpid visits pages lab, ∃ m, r.visits = some m :=
      mergeStep_preserve (snapStage2 cpid visits pages) (aggregateLabIssues lab) 0 setLab _
        (fun r m hp => hp) h2
    have h4 : ∀ r ∈ snapStage4 cpid visits pages lab saeDm saeSafety, ∃ m, r.visits = some m :=
      mergeStep_preserve (snapStage3 cpid visits pages lab) (aggregateSae saeDm saeSafety) ⟨0, 0, 0, 0, 0⟩ setSae _
        (fun r m hp => hp) h3
    have h5 : ∀ r ∈ snapStage5 cpid visits pages lab saeDm saeSafety medra whodd, ∃ m, r.visits = some m :=
      mergeStep_preserve (snapStage4 cpid visits pages lab saeDm saeSafety) (aggregateCoding medra whodd) ⟨0, 0, 0, 0, 0, 0, 0, 0⟩ setCoding _
        (fun r m hp => hp) h4
    have h6 : ∀ r ∈ buildSubjectSnapshot cpid visits pages lab saeDm saeSafety medra whodd edrr, ∃ m, r.visits = some m :=
      mergeStep_preserve (snapStage5 cpid visits pages lab saeDm saeSafety medra whodd) (aggregateEdrr edrr) 0 setEdrr _
        (fun r m hp => hp) h5
    obtain ⟨m, hm⟩ := h6 x hx
    simp [hm, hv]

theorem snapshot_pages_col (cpid : List CpidRow) (visits : List VisitRow)
    (pages : List PageRow) (lab : List LabRow) (saeDm saeSafety : List SaeRow)
    (medra whodd : List CodingRow) (edrr : List EdrrRow) :
    ∀ x ∈ buildSubjectSnapshot cpid visits pages lab saeDm saeSafety medra whodd edrr,
      (x.missingPages = none ↔ aggregateMissingPages pages = []) := by
  intro x hx
  by_cases hv : aggregateMissingPages pages = []
  · have h0 : ∀ r ∈ snapBase cpid, r.missingPages = none := by
      intro r hr
      unfold snapBase at hr
      rw [List.mem_map] at hr
      obtain ⟨e, _, rfl⟩ := hr
      rfl
    have h1 : ∀ r ∈ snapStage1 cpid visits, r.missingPages = none :=
      mergeStep_preserve (snapBase cpid) (aggregateVisits visits) (0, 0) setVisits _
        (fun r m hp => hp) h0
    have h2 : ∀ r ∈ snapStage2 cpid visits pages, r.missingPages = none := by
      have hskip : snapStage2 cpid visits pages = snapStage1 cpid visits := mergeStep_skip _ _ _ _ hv
      rw [hskip]
      exact h1
    have h3 : ∀ r ∈ snapStage3 cpid visits pages lab, r.missingPages = none :=
      mergeStep_preserve (snapStage2 cpid visits pages) (aggregateLabIssues lab) 0 setLab _
        (fun r m hp => hp) h2
    have h4 : ∀ r ∈ snapStage4 cpid visits pages lab saeDm saeSafety, r.missingPages = none :=
      mergeStep_preserve (snapStage3 cpid visits pages lab) (aggregateSae saeDm saeSafety) ⟨0, 0, 0, 0, 0⟩ setSae _
        (fun r m hp => hp) h3
    have h5 : ∀ r ∈ snapStage5 cpid visits pages lab saeDm saeSafety medra whodd, r.missingPages = none :=
      mergeStep_preserve (snapStage4 cpid visits pages lab saeDm saeSafety) (aggregateCoding medra whodd) ⟨0, 0, 0, 0, 0, 0, 0, 0⟩ setCoding _
        (fun r m hp => hp) h4
    have h6 : ∀ r ∈ buildSubjectSnapshot cpid visits pages lab saeDm saeSafety medra whodd edrr, r.missingPages = none :=
      mergeStep_preserve (snapStage5 cpid visits pages lab saeDm saeSafety medra whodd) (aggregateEdrr edrr) 0 setEdrr _
        (fun r m hp => hp) h5
    simp [h6 x hx, hv]
  · have h2 : ∀ r ∈ snapStage2 cpid visits pages, ∃ m, r.missingPages = some m :=
      mergeStep_establish (snapStage1 cpid visits) (aggregateMissingPages pages) (0, 0) setPages _ hv
        (fun r m => ⟨m, rfl⟩)
    have h3 : ∀ r ∈ snapStage3 cpid visits pages lab, ∃ m, r.missingPages = some m :=
      mergeStep_preserve (snapStage2 cpid visits pages) (aggregateLabIssues lab) 0 setLab _
        (fun r m hp => hp) h2
    have h4 : ∀ r ∈ snapStage4 cpid visits pages lab saeDm saeSafety, ∃ m, r.missingPages = some m :=
      mergeStep_preserve (snapStage3 cpid visits pages lab) (aggregateSae saeDm saeSafety) ⟨0, 0, 0, 0, 0⟩ setSae _
        (fun r m hp => hp) h3
    have h5 : ∀ r ∈ snapStage5 cpid visits pages lab saeDm saeSafety medra whodd, ∃ m, r.missingPages = some m :=
      mergeStep_preserve (snapStage4 cpid visits pages lab saeDm saeSafety) (aggregateCoding medra whodd) ⟨0, 0, 0, 0, 0, 0, 0, 0⟩ setCoding _
        (fun r m hp => hp) h4
    have h6 : ∀ r ∈ buildSubjectSnapshot cpid visits pages lab saeDm saeSafety medra whodd edrr, ∃ m, r.missingPages = some m :=
      mergeStep_preserve (snapStage5 cpid visits pages lab saeDm saeSafety medra whodd) (aggregateEdrr edrr) 0 setEdrr _
        (fun r m hp => hp) h5
    obtain ⟨m, hm⟩ := h6 x hx
    simp [hm, hv]

theorem snapshot_lab_col (cpid : List CpidRow) (visits : List VisitRow)
    (pages : List PageRow) (lab : List LabRow) (saeDm saeSafety : List SaeRow)
    (medra whodd : List CodingRow) (edrr : List EdrrRow) :
    ∀ x ∈ buildSubjectSnapshot cpid visits pages lab saeDm saeSafety medra whodd edrr,
      (x.lab = none ↔ aggregateLabIssues lab = []) := by
  intro x hx
  by_cases hv : aggregateLabIssues lab = []
  · have h0 : ∀ r ∈ snapBase cpid, r.lab = none := by
      intro r hr
      unfold snapBase at hr
      rw [List.mem_map] at hr
      obtain ⟨e, _, rfl⟩ := hr
      rfl
    have h1 : ∀ r ∈ snapStage1 cpid visits, r.lab = none :=
      mergeStep_preserve (snapBase cpid) (aggregateVisits visits) (0, 0) setVisits _
        (fun r m hp => hp) h0
    have h2 : ∀ r ∈ snapStage2 cpid visits pages, r.lab = none :=
      mergeStep_preserve (snapStage1 cpid visits) (aggregateMissingPages pages) (0, 0) setPages _
        (fun r m hp => hp) h1
    have h3 : ∀ r ∈ snapStage3 cpid visits pages lab, r.lab = none := by
      have hskip : snapStage3 cpid visits pages lab = snapStage2 cpid visits pages := mergeStep_skip _ _ _ _ hv
      rw [hskip]
      exact h2
    have h4 : ∀ r ∈ snapStage4 cpid visits pages lab saeDm saeSafety, r.lab = none :=
      mergeStep_preserve (snapStage3 cpid visits pages lab) (aggregateSae saeDm saeSafety) ⟨0, 0, 0, 0, 0⟩ setSae _
        (fun r m hp => hp) h3
    have h5 : ∀ r ∈ snapStage5 cpid visits pages lab saeDm saeSafety medra whodd, r.lab = none :=
      mergeStep_preserve (snapStage4 cpid visits pages lab saeDm saeSafety) (aggregateCoding medra whodd) ⟨0, 0, 0, 0, 0, 0, 0, 0⟩ setCoding _
        (fun r m hp => hp) h4
    have h6 : ∀ r ∈ buildSubjectSnapshot cpid visits pages lab saeDm saeSafety medra whodd edrr, r.lab = none :=
      mergeStep_preserve (snapStage5 cpid visits pages lab saeDm saeSafety medra whodd) (aggregateEdrr edrr) 0 setEdrr _
        (fun r m hp => hp) h5
    simp [h6 x hx, hv]
  · have h3 : ∀ r ∈ snapStage3 cpid visits pages lab, ∃ m, r.lab = some m :=
      mergeStep_establish (snapStage2 cpid visits pages) (aggregateLabIssues lab) 0 setLab _ hv
        (fun r m => ⟨m, rfl⟩)
    have h4 : ∀ r ∈ snapStage4 cpid visits pages lab saeDm saeSafety, ∃ m, r.lab = some m :=
      mergeStep_preserve (snapStage3 cpid visits pages lab) (aggregateSae saeDm saeSafety) ⟨0, 0, 0, 0, 0⟩ setSae _
        (fun r m hp => hp) h3
    have h5 : ∀ r ∈ snapStage5 cpid visits pages lab saeDm saeSafety medra whodd, ∃ m, r.lab = some m :=
      mergeStep_preserve (snapStage4 cpid visits pages lab saeDm saeSafety) (aggregateCoding medra whodd) ⟨0, 0, 0, 0, 0, 0, 0, 0⟩ setCoding _
        (fun r m hp => hp) h4
    have h6 : ∀ r ∈ buildSubjectSnapshot cpid visits pages lab saeDm saeSafety medra whodd edrr, ∃ m, r.lab = some m :=
      mergeStep_preserve (snapStage5 cpid visits pages lab saeDm saeSafety medra whodd) (aggregateEdrr edrr) 0 setEdrr _
        (fun r m hp => hp) h5
    obtain ⟨m, hm⟩ := h6 x hx
    simp [hm, hv]

theorem snapshot_sae_col (cpid : List CpidRow) (visits : List VisitRow)
    (pages : List PageRow) (lab : List LabRow) (saeDm saeSafety : List SaeRow)
    (medra whodd : List CodingRow) (edrr : List EdrrRow) :
    ∀ x ∈ buildSubjectSnapshot cpid visits pages lab saeDm saeSafety medra whodd edrr,
      (x.sae = none ↔ aggregateSae saeDm saeSafety = []) := by
  intro x hx
  by_cases hv : aggregateSae saeDm saeSafety = []
  · have h0 : ∀ r ∈ snapBase cpid, r.sae = none := by
      intro r hr
      unfold snapBase at hr
      rw [List.mem_map] at hr
      obtain ⟨e, _, rfl⟩ := hr
      rfl
    have h1 : ∀ r ∈ snapStage1 cpid visits, r.sae = none :=
      mergeStep_preserve (snapBase cpid) (aggregateVisits visits) (0, 0) setVisits _
        (fun r m hp => hp) h0
    have h2 : ∀ r ∈ snapStage2 cpid visits pages, r.sae = none :=
      mergeStep_preserve (snapStage1 cpid visits) (aggregateMissingPages pages) (0, 0) setPages _
        (fun r m hp => hp) h1
    have h3 : ∀ r ∈ snapStage3 cpid visits pages lab, r.sae = none :=
      mergeStep_preserve (snapStage2 cpid visits pages) (aggregateLabIssues lab) 0 setLab _
        (fun r m hp => hp) h2
    have h4 : ∀ r ∈ snapStage4 cpid visits pages lab saeDm saeSafety, r.sae = none := by
      have hskip : snapStage4 cpid visits pages lab saeDm saeSafety = snapStage3 cpid visits pages lab := mergeStep_skip _ _ _ _ hv
      rw [hskip]
      exact h3
    have h5 : ∀ r ∈ snapStage5 cpid visits pages lab saeDm saeSafety medra whodd, r.sae = none :=
      mergeStep_preserve (snapStage4 cpid visits pages lab saeDm saeSafety) (aggregateCoding medra whodd) ⟨0, 0, 0, 0, 0, 0, 0, 0⟩ setCoding _
        (fun r m hp => hp) h4
    have h6 : ∀ r ∈ buildSubjectSnapshot cpid visits pages lab saeDm saeSafety medra whodd edrr, r.sae = none :=
      mergeStep_preserve (snapStage5 cpid visits pages lab saeDm saeSafety medra whodd) (aggregateEdrr edrr) 0 setEdrr _
        (fun r m hp => hp) h5
    simp [h6 x hx, hv]
  · have h4 : ∀ r ∈ snapStage4 cpid visits pages lab saeDm saeSafety, ∃ m, r.sae = some m :=
      mergeStep_establish (snapStage3 cpid visits pages lab) (aggregateSae saeDm saeSafety) ⟨0, 0, 0, 0, 0⟩ setSae _ hv
        (fun r m => ⟨m, rfl⟩)
    have h5 : ∀ r ∈ snapStage5 cpid visits pages lab saeDm saeSafety medra whodd, ∃ m, r.sae = some m :=
      mergeStep_preserve (snapStage4 cpid visits pages lab saeDm saeSafety) (aggregateCoding medra whodd) ⟨0, 0, 0, 0, 0, 0, 0, 0⟩ setCoding _
        (fun r m hp => hp) h4
    have h6 : ∀ r ∈ buildSubjectSnapshot cpid visits pages lab saeDm saeSafety medra whodd edrr, ∃ m, r.sae = some m :=
      mergeStep_preserve (snapStage5 cpid visits pages lab saeDm saeSafety medra whodd) (aggregateEdrr edrr) 0 setEdrr _
        (fun r m hp => hp) h5
    obtain ⟨m, hm⟩ := h6 x hx
    simp [hm, hv]

theorem snapshot_coding_col (cpid : List CpidRow) (visits : List VisitRow)
    (pages : List PageRow) (lab : List LabRow) (saeDm saeSafety : List SaeRow)
    (medra whodd : List CodingRow) (edrr : List EdrrRow) :
    ∀ x ∈ buildSubjectSnapshot cpid visits pages lab saeDm saeSafety medra whodd edrr,
      (x.coding = none ↔ aggregateCoding medra whodd = []) := by
  intro x hx
  by_cases hv : aggregateCoding medra whodd = []
  · have h0 : ∀ r ∈ snapBase cpid, r.coding = none := by
      intro r hr
      unfold snapBase at hr
      rw [List.mem_map] at hr
      obtain ⟨e, _, rfl⟩ := hr
      rfl
    have h1 : ∀ r ∈ snapStage1 cpid visits, r.coding = none :=
      mergeStep_preserve (snapBase cpid) (aggregateVisits visits) (0, 0) setVisits _
        (fun r m hp => hp) h0
    have h2 : ∀ r ∈ snapStage2 cpid visits pages, r.coding = none :=
      mergeStep_preserve (snapStage1 cpid visits) (aggregateMissingPages pages) (0, 0) setPages _
        (fun r m hp => hp) h1
    have h3 : ∀ r ∈ snapStage3 cpid visits pages lab, r.coding = none :=
      mergeStep_preserve (snapStage2 cpid visits pages) (aggregateLabIssues lab) 0 setLab _
        (fun r m hp => hp) h2
    have h4 : ∀ r ∈ snapStage4 cpid visits pages lab saeDm saeSafety, r.coding = none :=
      mergeStep_preserve (snapStage3 cpid visits pages lab) (aggregateSae saeDm saeSafety) ⟨0, 0, 0, 0, 0⟩ setSae _
        (fun r m hp => hp) h3
    have h5 : ∀ r ∈ snapStage5 cpid visits pages lab saeDm saeSafety medra whodd, r.coding = none := by
      have hskip : snapStage5 cpid visits pages lab saeDm saeSafety medra whodd = snapStage4 cpid visits pages lab saeDm saeSafety := mergeStep_skip _ _ _ _ hv
      rw [hskip]
      exact h4
    have h6 : ∀ r ∈ buildSubjectSnapshot cpid visits pages lab saeDm saeSafety medra whodd edrr, r.coding = none :=
      mergeStep_preserve (snapStage5 cpid visits pages lab saeDm saeSafety medra whodd) (aggregateEdrr edrr) 0 setEdrr _
        (fun r m hp => hp) h5
    simp [h6 x hx, hv]
  · have h5 : ∀ r ∈ snapStage5 cpid visits pages lab saeDm saeSafety medra whodd, ∃ m, r.coding = some m :=
      mergeStep_establish (snapStage4 cpid visits pages lab saeDm saeSafety) (aggregateCoding medra whodd) ⟨0, 0, 0, 0, 0, 0, 0, 0⟩ setCoding _ hv
        (fun r m => ⟨m, rfl⟩)
    have h6 : ∀ r ∈ buildSubjectSnapshot cpid visits pages lab saeDm saeSafety medra whodd edrr, ∃ m, r.coding = some m :=
      mergeStep_preserve (snapStage5 cpid visits pages lab saeDm saeSafety medra whodd) (aggregateEdrr edrr) 0 setEdrr _
        (fun r m hp => hp) h5
    obtain ⟨m, hm⟩ := h6 x hx
    simp [hm, hv]

theorem snapshot_edrr_col (cpid : List CpidRow) (visits : List VisitRow)
    (pages : List PageRow) (lab : List LabRow) (saeDm saeSafety : List SaeRow)
    (medra whodd : List CodingRow) (edrr : List EdrrRow) :
    ∀ x ∈ buildSubjectSnapshot cpid visits pages lab saeDm saeSafety medra whodd edrr,
      (x.edrr = none ↔ aggregateEdrr edrr = []) := by
  intro x hx
  by_cases hv : aggregateEdrr edrr = []
  · have h0 : ∀ r ∈ snapBase cpid, r.edrr = none := by
      intro r hr
      unfold snapBase at hr
      rw [List.mem_map] at hr
      obtain ⟨e, _, rfl⟩ := hr
      rfl
    have h1 : ∀ r ∈ snapStage1 cpid visits, r.edrr = none :=
      mergeStep_preserve (snapBase cpid) (aggregateVisits visits) (0, 0) setVisits _
        (fun r m hp => hp) h0
    have h2 : ∀ r ∈ snapStage2 cpid visits pages, r.edrr = none :=
      mergeStep_preserve (snapStage1 cpid visits) (aggregateMissingPages pages) (0, 0) setPages _
        (fun r m hp => hp) h1
    have h3 : ∀ r ∈ snapStage3 cpid visits pages lab, r.edrr = none :=
      mergeStep_preserve (snapStage2 cpid visits pages) (aggregateLabIssues lab) 0 setLab _
        (fun r m hp => hp) h2
    have h4 : ∀ r ∈ snapStage4 cpid visits pages lab saeDm saeSafety, r.edrr = none :=
      mergeStep_preserve (snapStage3 cpid visits pages lab) (aggregateSae saeDm saeSafety) ⟨0, 0, 0, 0, 0⟩ setSae _
        (fun r m hp => hp) h3
    have h5 : ∀ r ∈ snapStage5 cpid visits pages lab saeDm saeSafety medra whodd, r.edrr = none :=
      mergeStep_preserve (snapStage4 cpid visits pages lab saeDm saeSafety) (aggregateCoding medra whodd) ⟨0, 0, 0, 0, 0, 0, 0, 0⟩ setCoding _
        (fun r m hp => hp) h4
    have h6 : ∀ r ∈ buildSubjectSnapshot cpid visits pages lab saeDm saeSafety medra whodd edrr, r.edrr = none := by
      have hskip : buildSubjectSnapshot cpid visits pages lab saeDm saeSafety medra whodd edrr = snapStage5 cpid visits pages lab saeDm saeSafety medra whodd := mergeStep_skip _ _ _ _ hv
      rw [hskip]
      exact h5
    simp [h6 x hx, hv]
  · have h6 : ∀ r ∈ buildSubjectSnapshot cpid visits pages lab saeDm saeSafety medra whodd edrr, ∃ m, r.edrr = some m :=
      mergeStep_establish (snapStage5 cpid visits pages lab saeDm saeSafety medra whodd) (aggregateEdrr edrr) 0 setEdrr _ hv
        (fun r m => ⟨m, rfl⟩)
    obtain ⟨m, hm⟩ := h6 x hx
    simp [hm, hv]

/-- C5 counterexample: with an empty visit source (and a one-subject
CPID table), `aggregate_visits` does return the empty aggregate, but
`build_subject_snapshot` skips it (`if not feat.empty`, line 519), so
the snapshot's visit metric columns are absent (`none`) rather than
present with value 0. -/
theorem C5_counterexample :
    aggregateVisits [] = [] ∧
    (buildSubjectSnapshot [⟨("1", "A", "P1"), []⟩] [] [] [] [] [] [] [] []).map
      SnapRow.visits = [none] :=
  ⟨rfl, rfl⟩

/-- C5 (amended): every aggregator maps a zero-row source to the empty
aggregate without raising, but `build_subject_snapshot` omits empty
aggregates from the merge (`if not feat.empty`); consequently a metric
group's columns are absent (`none`) from every snapshot row exactly
when its aggregate is empty, and present (non-null, zero-filled) on
every row otherwise. -/
theorem C5_empty_sources (cpid : List CpidRow) (visits : List VisitRow)
    (pages : List PageRow) (lab : List LabRow) (saeDm saeSafety : List SaeRow)
    (medra whodd : List CodingRow) (edrr : List EdrrRow) :
    aggregateVisits [] = [] ∧ aggregateMissingPages [] = [] ∧
    aggregateLabIssues [] = [] ∧ aggregateSae [] [] = [] ∧
    aggregateCoding [] [] = [] ∧ aggregateEdrr [] = [] ∧
    ∀ x ∈ buildSubjectSnapshot cpid visits pages lab saeDm saeSafety medra whodd edrr,
      (x.visits = none ↔ aggregateVisits visits = []) ∧
      (x.missingPages = none ↔ aggregateMissingPages pages = []) ∧
      (x.lab = none ↔ aggregateLabIssues lab = []) ∧
      (x.sae = none ↔ aggregateSae saeDm saeSafety = []) ∧
      (x.coding = none ↔ aggregateCoding medra whodd = []) ∧
      (x.edrr = none ↔ aggregateEdrr edrr = []) := by
  refine ⟨rfl, rfl, rfl, rfl, rfl, rfl, ?_⟩
  intro x hx
  exact ⟨snapshot_visits_col cpid visits pages lab saeDm saeSafety medra whodd edrr x hx,
    snapshot_pages_col cpid visits pages lab saeDm saeSafety medra whodd edrr x hx,
    snapshot_lab_col cpid visits pages lab saeDm saeSafety medra whodd edrr x hx,
    snapshot_sae_col cpid visits pages lab saeDm saeSafety medra whodd edrr x hx,
    snapshot_coding_col cpid visits pages lab saeDm saeSafety medra whodd edrr x hx,
    snapshot_edrr_col cpid visits pages lab saeDm saeSafety medra whodd edrr x hx⟩

/-- C5 witness: the amended theorem applied to a one-subject CPID table
with every optional source absent; the single snapshot row has all six
metric groups absent. -/
theorem C5_empty_sources_witness :
    ((snapInit ⟨("1", "A", "P1"), engineerQueryCols []⟩).visits = none ↔
      aggregateVisits [] = []) ∧
    ((snapInit ⟨("1", "A", "P1"), engineerQueryCols []⟩).missingPages = none ↔
      aggregateMissingPages [] = []) ∧
    ((snapInit ⟨("1", "A", "P1"), engineerQueryCols []⟩).lab = none ↔
      aggregateLabIssues [] = []) ∧
    ((snapInit ⟨("1", "A", "P1"), engineerQueryCols []⟩).sae = none ↔
      aggregateSae [] [] = []) ∧
    ((snapInit ⟨("1", "A", "P1"), engineerQueryCols []⟩).coding = none ↔
      aggregateCoding [] [] = []) ∧
    ((snapInit ⟨("1", "A", "P1"), engineerQueryCols []⟩).edrr = none ↔
      aggregateEdrr [] = []) :=
  (C5_empty_sources [⟨("1", "A", "P1"), []⟩] [] [] [] [] [] [] [] []).2.2.2.2.2.2
    (snapInit ⟨("1", "A", "P1"), engineerQueryCols []⟩) (List.mem_singleton.mpr rfl)

end NestDqi
